import Mathlib

/-! # ESP32 bulb controller: control, auto-off timer and history log

A shallow embedding of the state-bearing part of `src/main.cpp`: the two relay
outlets with their indicator LEDs, the polled auto-off schedule, the time
initialisation and the ten-row circular history buffer with its sampling
arithmetic.

Conventions of the embedding.

* The globals of `main.cpp` and the levels last written to the five output
  pins form one record `State`; every handler is a function on it that also
  returns the list of `server.send` calls it made, oldest first.
* `int` is `Int`, `unsigned long` is `Nat` reduced modulo `2 ^ 32`
  (`unsigned long` is 32 bits wide on the ESP32). Time is passed in as the
  uptime in milliseconds; `millis` reduces it to the 32-bit counter. The one
  `int` product that can leave the `int` range, `scheduledTime * 1000`, is only
  compared after its conversion to `unsigned long`, which is its exact value
  modulo `2 ^ 32`.
* One pass of `loop` reads the clock once: its calls of `millis()` return the
  same value.
* `float` and `double` values are their exact rational values or one of the
  two infinities or NaN (`Flt`); every arithmetic operation rounds its exact
  result to nearest, ties to even, in the format the C++ expression has
  (binary32 for `float * float` and `float * int`, binary64 for a division by
  a `double` literal, binary32 again when a `double` is stored in a `float`).
  The sign of a zero is not represented: no operation used here can tell
  `-0.0` from `0.0` by value.
* `Serial` logging has no effect on the state and is left out.
-/

namespace BulbControl

/-! ## Floating point -/

/-- An IEEE-754 value: a finite rational, an infinity, or not-a-number. -/
inductive Flt where
  | fin (q : ℚ)
  | pinf
  | ninf
  | nan
  deriving DecidableEq, Repr

/-- Nearest integer to `m`, a tie going to the even neighbour. -/
def roundHalfEven (m : ℚ) : ℤ :=
  if m - ⌊m⌋ < 1 / 2 then ⌊m⌋
  else if 1 / 2 < m - ⌊m⌋ then ⌊m⌋ + 1
  else if ⌊m⌋ % 2 = 0 then ⌊m⌋ else ⌊m⌋ + 1

/-- Round-to-nearest-even of the exact value `q` into the binary format with
`p` significand bits, least normal exponent `emin` and greatest exponent
`emax`: the unit in the last place is `2 ^ (e - (p - 1))` where `e` is the
exponent of the leading bit of `q`, held at `emin` in the subnormal range, and
a rounded magnitude of `2 ^ (emax + 1)` or more overflows to an infinity. -/
def rne (p : ℕ) (emin emax : ℤ) (q : ℚ) : Flt :=
  if q = 0 then .fin 0
  else
    let e : ℤ := max (Int.log 2 |q|) emin
    let ulp : ℚ := 2 ^ (e - ((p : ℤ) - 1))
    let v : ℚ := (roundHalfEven (q / ulp) : ℚ) * ulp
    if (2 : ℚ) ^ (emax + 1) ≤ |v| then (if 0 < q then .pinf else .ninf) else .fin v

/-- Rounding into binary32, the format of `float`. -/
def rne32 (q : ℚ) : Flt := rne 24 (-126) 127 q

/-- Rounding into binary64, the format of `double`. -/
def rne64 (q : ℚ) : Flt := rne 53 (-1022) 1023 q

namespace Flt

/-- The sign of a value as `-1`, `0` or `1`; NaN has sign `0`. -/
def sign : Flt → ℤ
  | fin q => if 0 < q then 1 else if q < 0 then -1 else 0
  | pinf => 1
  | ninf => -1
  | nan => 0

/-- The infinity of the given sign (NaN for sign `0`, the invalid operation). -/
def ofSign (z : ℤ) : Flt :=
  if 0 < z then pinf else if z < 0 then ninf else nan

/-- IEEE multiplication, the exact product rounded by `rnd`. -/
def mulWith (rnd : ℚ → Flt) : Flt → Flt → Flt
  | nan, _ => nan
  | _, nan => nan
  | fin a, fin b => rnd (a * b)
  | a, b => ofSign (a.sign * b.sign)

/-- IEEE division, the exact quotient rounded by `rnd`. -/
def divWith (rnd : ℚ → Flt) (a b : Flt) : Flt :=
  match a, b with
  | nan, _ => nan
  | _, nan => nan
  | fin x, fin y => if y = 0 then ofSign (sign (fin x)) else rnd (x / y)
  | fin _, _ => fin 0
  | x, fin y => ofSign (x.sign * (if y < 0 then -1 else 1))
  | _, _ => nan

/-- The C library `floor`: exact on every finite value, identity elsewhere. -/
def floor : Flt → Flt
  | fin q => fin (⌊q⌋ : ℤ)
  | x => x

/-- The comparison `a < b`; false as soon as one side is NaN. -/
def lt : Flt → Flt → Bool
  | nan, _ => false
  | _, nan => false
  | fin a, fin b => decide (a < b)
  | ninf, ninf => false
  | pinf, pinf => false
  | ninf, _ => true
  | _, pinf => true
  | _, _ => false

/-- The comparison `a ≤ b`; false as soon as one side is NaN. -/
def le : Flt → Flt → Bool
  | nan, _ => false
  | _, nan => false
  | fin a, fin b => decide (a ≤ b)
  | ninf, _ => true
  | _, pinf => true
  | _, _ => false

/-- Conversion of a `double` to `float` (a store into a `float` variable). -/
def toFloat : Flt → Flt
  | fin q => rne32 q
  | x => x

end Flt

/-- The `double` literal `0.09`. -/
def lit_0_09 : Flt := rne64 (9 / 100)

/-- Value of the 32-bit pattern `w` read as a binary32 `float`: bit 31 is the
sign, bits 30..23 the biased exponent, bits 22..0 the fraction. -/
def floatOfBits (w : ℕ) : Flt :=
  let s : ℚ := if w / 2 ^ 31 % 2 = 1 then -1 else 1
  let e : ℕ := w / 2 ^ 23 % 256
  let f : ℕ := w % 2 ^ 23
  if e = 255 then (if f = 0 then (if w / 2 ^ 31 % 2 = 1 then .ninf else .pinf) else .nan)
  else if e = 0 then .fin (s * f * 2 ^ (-149 : ℤ))
  else .fin (s * (2 ^ 23 + f) * 2 ^ ((e : ℤ) - 150))

/-! ## Program state -/

/-- The record type `struct HistoricalData`. -/
structure HistoricalData where
  date : String
  time : String
  bulb1State : String
  bulb2State : String
  roundedCurrent : Flt
  roundedPower : Flt
  deriving DecidableEq, Repr

/-- A slot of the global array `history` before its first write: the strings
are empty and the two `float`s are zero. -/
def HistoricalData.empty : HistoricalData :=
  { date := "", time := "", bulb1State := "", bulb2State := "",
    roundedCurrent := .fin 0, roundedPower := .fin 0 }

/-- The constant `maxHistoryRows`. -/
def maxHistoryRows : ℤ := 10

/-- The constant `voltageSupply`, a `float`. -/
def voltageSupply : Flt := .fin 220

/-- The string `String(value, digits)` of a `double`: the value and the number of decimal
places it is printed with (the printing itself is Arduino core code). -/
structure Decimal where
  value : Flt
  places : ℕ
  deriving DecidableEq, Repr

/-- One object of the `"data"` array built by `handleHistoricalData`. -/
structure JsonEntry where
  date : String
  time : String
  bulb1State : String
  bulb2State : String
  current : Decimal
  power : Decimal
  deriving DecidableEq, Repr

/-- What a `server.send` call carries as its content. -/
inductive Body where
  | text (s : String)
  | mainPage
  | data (rows : List JsonEntry)
  deriving DecidableEq, Repr

/-- One `server.send(code, contentType, body)` call. -/
structure Response where
  code : ℕ
  contentType : String
  body : Body
  deriving DecidableEq, Repr

/-- The globals of `main.cpp` together with the levels of the output pins. -/
structure State where
  bulb1State : Bool
  bulb2State : Bool
  isAnyBulbOn : Bool
  isScheduled : Bool
  scheduledTime : ℤ
  lastUpdateTime : ℕ
  relayOnTime : ℕ
  history : List HistoricalData
  historyIndex : ℤ
  storedDate : String
  storedTime : String
  timeInitialized : Bool
  currentReading : Flt
  powerConsumption : Flt
  relay1 : Bool
  relay2 : Bool
  greenLED : Bool
  yellowLED : Bool
  redLED : Bool
  deriving DecidableEq, Repr

/-- The state when `setup` returns: the initialisers of the globals, both relay
pins still at their reset level and the LEDs as `setLEDs(false, true, false)`
leaves them. -/
def boot : State :=
  { bulb1State := false, bulb2State := false, isAnyBulbOn := false,
    isScheduled := false, scheduledTime := 5, lastUpdateTime := 0, relayOnTime := 0,
    history := List.replicate 10 HistoricalData.empty, historyIndex := 0,
    storedDate := "2024-11-1", storedTime := "00:00:00", timeInitialized := false,
    currentReading := .fin 0, powerConsumption := .fin 0,
    relay1 := false, relay2 := false,
    greenLED := false, yellowLED := true, redLED := false }

/-- The 32-bit counter `millis()` at uptime `t` milliseconds. -/
def millis (t : ℕ) : ℕ := t % 2 ^ 32

/-- Unsigned 32-bit subtraction. -/
def subU32 (a b : ℕ) : ℕ := (a % 2 ^ 32 + (2 ^ 32 - b % 2 ^ 32)) % 2 ^ 32

/-- Conversion of an `int` to `unsigned long`. -/
def toU32 (i : ℤ) : ℕ := (i % 2 ^ 32).toNat

/-! ## Handlers -/

/-- The function `setLEDs`. -/
def setLEDs (s : State) (ready idle error : Bool) : State :=
  { s with greenLED := ready, yellowLED := idle, redLED := error }

/-- The handler `handleRoot`. -/
def handleRoot (s : State) : State × List Response :=
  (s, [⟨200, "text/html", .mainPage⟩])

/-- The handler `handleTurnOnAll`. -/
def handleTurnOnAll (s : State) : State × List Response :=
  let s := { s with bulb1State := true }
  let s := { s with bulb2State := true }
  let s := { s with relay1 := true }
  let s := { s with relay2 := true }
  let s := setLEDs s true false false
  (s, [⟨200, "application/json", .text "\x7b\"status\":\"All bulbs turned on\"\x7d"⟩])

/-- The handler `handleTurnOffAll`. -/
def handleTurnOffAll (s : State) : State × List Response :=
  let s := { s with bulb1State := false }
  let s := { s with bulb2State := false }
  let s := { s with relay1 := false }
  let s := { s with relay2 := false }
  let s := setLEDs s false true false
  let s := { s with isScheduled := false }
  (s, [⟨200, "application/json", .text "\x7b\"status\":\"All bulbs turned off\"\x7d"⟩])

/-- The handler `handleToggleBulb1`. -/
def handleToggleBulb1 (s : State) : State × List Response :=
  let s := { s with bulb1State := !s.bulb1State }
  let s := { s with relay1 := s.bulb1State }
  let isAnyBulbOn := s.bulb1State || s.bulb2State
  let areBothBulbsOff := !s.bulb1State && !s.bulb2State
  let s := setLEDs s isAnyBulbOn areBothBulbsOff false
  (s, [⟨200, "application/json", .text "\x7b\"status\":\"Bulb 1 toggled\"\x7d"⟩])

/-- The handler `handleToggleBulb2`. -/
def handleToggleBulb2 (s : State) : State × List Response :=
  let s := { s with bulb2State := !s.bulb2State }
  let s := { s with relay2 := s.bulb2State }
  let isAnyBulbOn := s.bulb1State || s.bulb2State
  let areBothBulbsOff := !s.bulb1State && !s.bulb2State
  let s := setLEDs s isAnyBulbOn areBothBulbsOff false
  (s, [⟨200, "application/json", .text "\x7b\"status\":\"Bulb 2 toggled\"\x7d"⟩])

/-- The handler `handleScheduleTime` at uptime `t`. `value` is `none` when the request has
no `value` argument and otherwise the result of `toInt()` on it. -/
def handleScheduleTime (s : State) (value : Option ℤ) (t : ℕ) : State × List Response :=
  let (s, sent) := handleTurnOnAll s
  match value with
  | some v =>
    let s := { s with scheduledTime := v }
    let s := { s with relayOnTime := millis t }
    let s := { s with isScheduled := true }
    (s, sent ++ [⟨200, "application/json", .text "\x7b\"status\":\"success\"\x7d"⟩])
  | none =>
    (s, sent ++ [⟨400, "application/json",
      .text "\x7b\"status\":\"error\", \"message\":\"Missing parameter\"\x7d"⟩])

/-- The handler `handleTimeInit`; an argument is `none` when the request does not carry it. -/
def handleTimeInit (s : State) (date time : Option String) : State × List Response :=
  let s :=
    match date, time with
    | some d, some tm =>
      if !s.timeInitialized then
        { s with storedDate := d, storedTime := tm, timeInitialized := true }
      else s
    | _, _ => s
  (s, [⟨200, "text/plain", .text "Time initialized"⟩])

/-- The `double` that `formatCurrent` and the sampling code compute from a
`float`: `floor(value * 10000) / 10000.0`. -/
def floor4 (value : Flt) : Flt :=
  Flt.divWith rne64 (Flt.floor (Flt.mulWith rne32 value (.fin 10000))) (.fin 10000)

/-- The `double` that `formatPower` and the sampling code compute from a
`float`: `floor(value * 100) / 100.0`. -/
def floor2 (value : Flt) : Flt :=
  Flt.divWith rne64 (Flt.floor (Flt.mulWith rne32 value (.fin 100))) (.fin 100)

/-- The function `formatCurrent`. -/
def formatCurrent (value : Flt) : Decimal := ⟨floor4 value, 4⟩

/-- The function `formatPower`. -/
def formatPower (value : Flt) : Decimal := ⟨floor2 value, 2⟩

/-- The array read `history[index]`. -/
def State.historyAt (s : State) (index : ℤ) : HistoricalData :=
  s.history.getD index.toNat HistoricalData.empty

/-- The JSON object `handleHistoricalData` makes of the row `history[index]`. -/
def jsonOf (h : HistoricalData) : JsonEntry :=
  { date := h.date, time := h.time, bulb1State := h.bulb1State,
    bulb2State := h.bulb2State, current := formatCurrent h.roundedCurrent,
    power := formatPower h.roundedPower }

/-- The index `(historyIndex - 1 - i + maxHistoryRows) % maxHistoryRows` of the
row that `handleHistoricalData` reads in round `i` of its loop (`%` of C++
truncates towards zero). -/
def readIndex (s : State) (i : ℕ) : ℤ :=
  Int.tmod (s.historyIndex - 1 - (i : ℤ) + maxHistoryRows) maxHistoryRows

/-- The rows `history[index]` that `handleHistoricalData` reads, in the order of
its loop `for (int i = 0; i < maxHistoryRows; i++)`. -/
def readRows (s : State) : List HistoricalData :=
  (List.range maxHistoryRows.toNat).map fun i => s.historyAt (readIndex s i)

/-- The objects `handleHistoricalData` puts into the `"data"` array, one for
each row read, in the same order. -/
def historicalRows (s : State) : List JsonEntry :=
  (readRows s).map jsonOf

/-- The handler `handleHistoricalData` (the 2048-byte capacity of the JSON document is not
represented). -/
def handleHistoricalData (s : State) : State × List Response :=
  (s, [⟨200, "application/json", .data (historicalRows s)⟩])

/-- The function `updateHistoricalData`, with `reading` the value `getCurrentAC()` returns. -/
def updateHistoricalData (s : State) (reading : Flt) : State :=
  let date := s.storedDate
  let time := s.storedTime
  let s := { s with currentReading := reading }
  let s := if Flt.lt s.currentReading lit_0_09 then { s with currentReading := .fin 0 } else s
  let s := { s with powerConsumption := Flt.mulWith rne32 voltageSupply s.currentReading }
  let roundedCurrent := Flt.toFloat (floor4 s.currentReading)
  let roundedPower := Flt.toFloat (floor2 s.powerConsumption)
  let row : HistoricalData :=
    { date := date, time := time,
      bulb1State := if s.bulb1State then "On" else "Off",
      bulb2State := if s.bulb2State then "On" else "Off",
      roundedCurrent := roundedCurrent, roundedPower := roundedPower }
  let s := { s with history := s.history.set s.historyIndex.toNat row }
  { s with historyIndex := Int.tmod (s.historyIndex + 1) maxHistoryRows }

/-- A request as routed by `server.on` in `setup`. -/
inductive Request where
  | root
  | turnOnAll
  | turnOffAll
  | toggleBulb1
  | toggleBulb2
  | schedule (value : Option ℤ)
  | timeInit (date time : Option String)
  | historicalData
  deriving DecidableEq, Repr

/-- The handler `server.handleClient()` runs for a pending request at uptime `t`. -/
def handleClient (s : State) (req : Option Request) (t : ℕ) : State × List Response :=
  match req with
  | none => (s, [])
  | some .root => handleRoot s
  | some .turnOnAll => handleTurnOnAll s
  | some .turnOffAll => handleTurnOffAll s
  | some .toggleBulb1 => handleToggleBulb1 s
  | some .toggleBulb2 => handleToggleBulb2 s
  | some (.schedule v) => handleScheduleTime s v t
  | some (.timeInit d tm) => handleTimeInit s d tm
  | some .historicalData => handleHistoricalData s

/-- One pass of `loop` at uptime `t`: `req` is the request pending in the server,
if any, and `reading` is what the current sensor returns should this pass take a
sample. -/
def loop (s : State) (req : Option Request) (t : ℕ) (reading : Flt) : State × List Response :=
  let (s, sent) := handleClient s req t
  let (s, sent) :=
    if s.isScheduled && decide (toU32 (s.scheduledTime * 1000) ≤ subU32 (millis t) s.relayOnTime) then
      let (s, r) := handleTurnOffAll s
      (s, sent ++ r)
    else (s, sent)
  let currentMillis := millis t
  if 5000 ≤ subU32 currentMillis s.lastUpdateTime then
    let s := updateHistoricalData s reading
    let s := { s with lastUpdateTime := currentMillis }
    let (s, r) := handleHistoricalData s
    (s, sent ++ r)
  else (s, sent)

/-! ## Runs -/

/-- The four outlet operations of the controller. -/
inductive ControlCall where
  | turnOnAll
  | turnOffAll
  | toggle1
  | toggle2
  deriving DecidableEq, Repr

/-- The state after one outlet operation. -/
def applyCall (s : State) : ControlCall → State
  | .turnOnAll => (handleTurnOnAll s).1
  | .turnOffAll => (handleTurnOffAll s).1
  | .toggle1 => (handleToggleBulb1 s).1
  | .toggle2 => (handleToggleBulb2 s).1

/-- The state after a sequence of outlet operations, first to last. -/
def runCalls (s : State) (calls : List ControlCall) : State :=
  calls.foldl applyCall s

/-- One pass of `loop`: the pending request, the uptime and the sensor value. -/
structure Pass where
  req : Option Request
  t : ℕ
  reading : Flt
  deriving DecidableEq, Repr

/-- The state after a sequence of passes of `loop`, first to last. -/
def runLoop (s : State) (passes : List Pass) : State :=
  passes.foldl (fun s p => (loop s p.req p.t p.reading).1) s

/-- A pass of `loop` with no request pending. -/
def tick (t : ℕ) (reading : Flt) : Pass := ⟨none, t, reading⟩

/-- What `updateHistoricalData` reads when it runs: the stored date and time,
the two outlet states and the sensor value. -/
structure SampleInput where
  date : String
  time : String
  bulb1 : Bool
  bulb2 : Bool
  reading : Flt
  deriving DecidableEq, Repr

/-- What a call of `updateHistoricalData` reads in state `s` when the sensor
returns `r`. -/
def inputOf (s : State) (r : Flt) : SampleInput :=
  { date := s.storedDate, time := s.storedTime, bulb1 := s.bulb1State,
    bulb2 := s.bulb2State, reading := r }

/-- A call of `updateHistoricalData` in a state whose date, time and outlet
states are those of `i`. -/
def sampleWith (s : State) (i : SampleInput) : State :=
  updateHistoricalData
    { s with storedDate := i.date, storedTime := i.time,
             bulb1State := i.bulb1, bulb2State := i.bulb2 } i.reading

/-- The state after a sequence of samples, first to last. -/
def runSamples (s : State) (inputs : List SampleInput) : State :=
  inputs.foldl sampleWith s

/-- The row `updateHistoricalData` writes for the input `i`. -/
def rowOf (i : SampleInput) : HistoricalData :=
  (sampleWith boot i).historyAt 0

/-- Sample number `k` of a test run: taken on day `k` of November 2024 with both
outlets on and a sensor value of `k` amperes. -/
def sampleNo (k : ℕ) : SampleInput :=
  { date := "2024-11-" ++ toString k, time := "00:00:00", bulb1 := true, bulb2 := true,
    reading := .fin k }

/-- The indicator lines agree with the outlets: green is "some outlet on",
yellow is "no outlet on", red is off. -/
def IndicatorOk (s : State) : Prop :=
  s.greenLED = (s.bulb1State || s.bulb2State) ∧
  s.yellowLED = !(s.bulb1State || s.bulb2State) ∧
  s.redLED = false

/-- Both outlets are on and the timer is armed with duration `D` seconds since
uptime `T`. -/
def ArmedAt (D : ℤ) (T : ℕ) (s : State) : Prop :=
  s.bulb1State = true ∧ s.bulb2State = true ∧ s.relay1 = true ∧ s.relay2 = true ∧
  s.isScheduled = true ∧ s.scheduledTime = D ∧ s.relayOnTime = millis T

/-- The test `loop` makes before it turns everything off: the timer is armed
and `millis() - relayOnTime >= scheduledTime * 1000` in `unsigned long`. -/
def expiryDue (s : State) (t : ℕ) : Bool :=
  s.isScheduled && decide (toU32 (s.scheduledTime * 1000) ≤ subU32 (millis t) s.relayOnTime)

/-- The pass `p` of `loop`, started in `s`, reaches its expiry branch: the test
holds in the state the request handler leaves. -/
def firesExpiry (s : State) (p : Pass) : Bool :=
  expiryDue (handleClient s p.req p.t).1 p.t

/-- The number of passes of a run that reach the expiry branch. -/
def expiryCount (s : State) : List Pass → ℕ
  | [] => 0
  | p :: ps =>
    (if firesExpiry s p then 1 else 0) + expiryCount (loop s p.req p.t p.reading).1 ps

/-- The pass carries no schedule request. -/
def Pass.noSchedule (p : Pass) : Bool :=
  match p.req with
  | some (.schedule _) => false
  | _ => true

/-- The pass carries neither a turn-off-all nor a schedule request. -/
def Pass.keepsTimer (p : Pass) : Bool :=
  match p.req with
  | some (.schedule _) => false
  | some .turnOffAll => false
  | _ => true

/-- The timer is armed with duration `D` seconds since uptime `T`. -/
def TimerArmed (D : ℤ) (T : ℕ) (s : State) : Prop :=
  s.isScheduled = true ∧ s.scheduledTime = D ∧ s.relayOnTime = millis T

/-! # Theorems -/

/-! ## Outlets and indicator -/

theorem indicatorOk_applyCall (s : State) (c : ControlCall) : IndicatorOk (applyCall s c) := by
  cases c <;>
    simp [IndicatorOk, applyCall, handleTurnOnAll, handleTurnOffAll, handleToggleBulb1,
      handleToggleBulb2, setLEDs]

/-- C1: from the boot state, after every finite sequence of turnOnAll,
turnOffAll, toggle(1) and toggle(2) calls (hence after every call of every such
sequence) the lines last written by `setLEDs` satisfy
ready = (outlet1 or outlet2), idle = not (outlet1 or outlet2), error = false. -/
theorem indicator_invariant (calls : List ControlCall) :
    (runCalls boot calls).greenLED
        = ((runCalls boot calls).bulb1State || (runCalls boot calls).bulb2State) ∧
    (runCalls boot calls).yellowLED
        = !((runCalls boot calls).bulb1State || (runCalls boot calls).bulb2State) ∧
    (runCalls boot calls).redLED = false := by
  rcases List.eq_nil_or_concat calls with h | ⟨init, c, h⟩
  · subst h
    simp [runCalls, boot]
  · subst h
    have := indicatorOk_applyCall (runCalls boot init) c
    simpa [runCalls, IndicatorOk, List.foldl_append] using this

/-- C4: whatever the prior state, after `handleTurnOffAll` both outlets are off,
both relay outputs are low, the indicator is (ready = false, idle = true,
error = false) and the schedule is disarmed. -/
theorem turnOffAll_post (s : State) :
    (handleTurnOffAll s).1.bulb1State = false ∧
    (handleTurnOffAll s).1.bulb2State = false ∧
    (handleTurnOffAll s).1.relay1 = false ∧
    (handleTurnOffAll s).1.relay2 = false ∧
    (handleTurnOffAll s).1.greenLED = false ∧
    (handleTurnOffAll s).1.yellowLED = true ∧
    (handleTurnOffAll s).1.redLED = false ∧
    (handleTurnOffAll s).1.isScheduled = false := by
  simp [handleTurnOffAll, setLEDs]

/-- C10: each toggle handler negates its own outlet and drives its own relay to
the new state; the other outlet and its relay, the schedule (armed flag,
duration, arm timestamp), the clock (date, time, initialised flag) and the
history log with its cursor are as before. -/
theorem toggle_frame (s : State) :
    ((handleToggleBulb1 s).1.bulb1State = !s.bulb1State ∧
     (handleToggleBulb1 s).1.relay1 = !s.bulb1State ∧
     (handleToggleBulb1 s).1.bulb2State = s.bulb2State ∧
     (handleToggleBulb1 s).1.relay2 = s.relay2 ∧
     (handleToggleBulb1 s).1.isScheduled = s.isScheduled ∧
     (handleToggleBulb1 s).1.scheduledTime = s.scheduledTime ∧
     (handleToggleBulb1 s).1.relayOnTime = s.relayOnTime ∧
     (handleToggleBulb1 s).1.storedDate = s.storedDate ∧
     (handleToggleBulb1 s).1.storedTime = s.storedTime ∧
     (handleToggleBulb1 s).1.timeInitialized = s.timeInitialized ∧
     (handleToggleBulb1 s).1.history = s.history ∧
     (handleToggleBulb1 s).1.historyIndex = s.historyIndex) ∧
    ((handleToggleBulb2 s).1.bulb2State = !s.bulb2State ∧
     (handleToggleBulb2 s).1.relay2 = !s.bulb2State ∧
     (handleToggleBulb2 s).1.bulb1State = s.bulb1State ∧
     (handleToggleBulb2 s).1.relay1 = s.relay1 ∧
     (handleToggleBulb2 s).1.isScheduled = s.isScheduled ∧
     (handleToggleBulb2 s).1.scheduledTime = s.scheduledTime ∧
     (handleToggleBulb2 s).1.relayOnTime = s.relayOnTime ∧
     (handleToggleBulb2 s).1.storedDate = s.storedDate ∧
     (handleToggleBulb2 s).1.storedTime = s.storedTime ∧
     (handleToggleBulb2 s).1.timeInitialized = s.timeInitialized ∧
     (handleToggleBulb2 s).1.history = s.history ∧
     (handleToggleBulb2 s).1.historyIndex = s.historyIndex) := by
  simp [handleToggleBulb1, handleToggleBulb2, setLEDs]

/-! ## Schedule requests -/

/-- C2, the code at the failing input: a schedule request without `value`,
handled in the boot state, leaves the schedule untouched but has already turned
both outlets and relays on and switched the indicator to ready, and it has sent
the "All bulbs turned on" success response before the 400 error response. -/
theorem schedule_missing_value_at_boot :
    (handleScheduleTime boot none 0).1 =
      { boot with bulb1State := true, bulb2State := true, relay1 := true, relay2 := true,
                  greenLED := true, yellowLED := false, redLED := false } ∧
    (handleScheduleTime boot none 0).1 ≠ boot ∧
    ((handleScheduleTime boot none 0).1.isScheduled = boot.isScheduled ∧
     (handleScheduleTime boot none 0).1.scheduledTime = boot.scheduledTime ∧
     (handleScheduleTime boot none 0).1.relayOnTime = boot.relayOnTime) ∧
    (handleScheduleTime boot none 0).2.map (fun r => r.code) = [200, 400] := by
  refine ⟨rfl, ?_, ⟨rfl, rfl, rfl⟩, rfl⟩
  intro h
  have := congrArg State.bulb1State h
  simp [handleScheduleTime, handleTurnOnAll, setLEDs, boot] at this

/-- C6: whatever the prior state, a schedule request carrying the duration `D`
handled at uptime `t` leaves both outlets on, the timer armed, the stored
duration `D` and the stored arm timestamp `millis t`; the whole resulting state
and the responses are the same when the prior schedule (armed flag `a0`,
duration `D0`, arm timestamp `T0`) is replaced by any other. -/
theorem schedule_last_write_wins (s : State) (D : ℤ) (t : ℕ) (a0 : Bool) (D0 : ℤ) (T0 : ℕ) :
    (handleScheduleTime s (some D) t).1.bulb1State = true ∧
    (handleScheduleTime s (some D) t).1.bulb2State = true ∧
    (handleScheduleTime s (some D) t).1.isScheduled = true ∧
    (handleScheduleTime s (some D) t).1.scheduledTime = D ∧
    (handleScheduleTime s (some D) t).1.relayOnTime = millis t ∧
    handleScheduleTime { s with isScheduled := a0, scheduledTime := D0, relayOnTime := T0 }
        (some D) t = handleScheduleTime s (some D) t := by
  simp [handleScheduleTime, handleTurnOnAll, setLEDs]

/-! ## Time initialisation -/

theorem updateHistoricalData_clock (s : State) (r : Flt) :
    (updateHistoricalData s r).storedDate = s.storedDate ∧
    (updateHistoricalData s r).storedTime = s.storedTime ∧
    (updateHistoricalData s r).timeInitialized = s.timeInitialized := by
  unfold updateHistoricalData
  dsimp only
  split <;> simp

theorem handleClient_clock (s : State) (req : Option Request) (t : ℕ)
    (h : s.timeInitialized = true) :
    (handleClient s req t).1.storedDate = s.storedDate ∧
    (handleClient s req t).1.storedTime = s.storedTime ∧
    (handleClient s req t).1.timeInitialized = true := by
  rcases req with _ | req
  · simp [handleClient, h]
  · cases req with
    | schedule v =>
      cases v <;> simp [handleClient, handleScheduleTime, handleTurnOnAll, setLEDs, h]
    | timeInit d tm =>
      cases d <;> cases tm <;> simp [handleClient, handleTimeInit, h]
    | _ =>
      simp [handleClient, handleRoot, handleTurnOnAll, handleTurnOffAll, handleToggleBulb1,
        handleToggleBulb2, handleHistoricalData, setLEDs, h]

theorem loop_clock (s : State) (p : Pass) (h : s.timeInitialized = true) :
    (loop s p.req p.t p.reading).1.storedDate = s.storedDate ∧
    (loop s p.req p.t p.reading).1.storedTime = s.storedTime ∧
    (loop s p.req p.t p.reading).1.timeInitialized = true := by
  obtain ⟨h1, h2, h3⟩ := handleClient_clock s p.req p.t h
  unfold loop
  generalize handleClient s p.req p.t = hc at h1 h2 h3
  obtain ⟨s1, sent⟩ := hc
  simp only at h1 h2 h3
  dsimp only
  split_ifs <;>
    simp [handleTurnOffAll, handleHistoricalData, setLEDs, updateHistoricalData_clock, h1, h2, h3]

theorem runLoop_clock (passes : List Pass) (s : State) (h : s.timeInitialized = true) :
    (runLoop s passes).storedDate = s.storedDate ∧
    (runLoop s passes).storedTime = s.storedTime ∧
    (runLoop s passes).timeInitialized = true := by
  induction passes generalizing s with
  | nil => simp [runLoop, h]
  | cons p ps ih =>
    obtain ⟨h1, h2, h3⟩ := loop_clock s p h
    have := ih (loop s p.req p.t p.reading).1 h3
    simp only [runLoop, List.foldl_cons] at this ⊢
    rw [h1, h2] at this
    exact this

/-- C7: once a time-init request carrying both a date `d` and a time `tm` has
been accepted (the clock was not yet initialised), the stored date, the stored
time and the initialised flag stay `d`, `tm` and true through every later run of
`loop` passes, whatever requests they carry (further time-init requests with
any arguments included); and every time-init request, accepted or not, is
answered by the one response `200 text/plain "Time initialized"`. -/
theorem timeInit_first_wins (s : State) (d tm : String) (h : s.timeInitialized = false)
    (later : List Pass) :
    ((runLoop (handleTimeInit s (some d) (some tm)).1 later).storedDate = d ∧
     (runLoop (handleTimeInit s (some d) (some tm)).1 later).storedTime = tm ∧
     (runLoop (handleTimeInit s (some d) (some tm)).1 later).timeInitialized = true) ∧
    ∀ (s0 : State) (a b : Option String),
      (handleTimeInit s0 a b).2 = [⟨200, "text/plain", .text "Time initialized"⟩] := by
  have h0 : (handleTimeInit s (some d) (some tm)).1
      = { s with storedDate := d, storedTime := tm, timeInitialized := true } := by
    simp [handleTimeInit, h]
  refine ⟨?_, fun s0 a b => rfl⟩
  have := runLoop_clock later (handleTimeInit s (some d) (some tm)).1 (by rw [h0])
  rw [h0] at this ⊢
  simpa using this

theorem timeInit_first_wins_witness :
    boot.timeInitialized = false ∧
    ((runLoop (handleTimeInit boot (some "2024-01-01") (some "12:00:00")).1
        [⟨some (.timeInit (some "2024-02-02") (some "00:00:00")), 0, .fin 0⟩]).storedDate
        = "2024-01-01" ∧
     (runLoop (handleTimeInit boot (some "2024-01-01") (some "12:00:00")).1
        [⟨some (.timeInit (some "2024-02-02") (some "00:00:00")), 0, .fin 0⟩]).storedTime
        = "12:00:00") :=
  ⟨rfl, (timeInit_first_wins boot "2024-01-01" "12:00:00" rfl _).1.1,
    (timeInit_first_wins boot "2024-01-01" "12:00:00" rfl _).1.2.1⟩

/-! ## Auto-off timer -/

theorem subU32_millis (t T : ℕ) (h : T ≤ t) (hr : t - T < 2 ^ 32) :
    subU32 (millis t) (millis T) = t - T := by
  unfold subU32 millis
  norm_num at hr ⊢
  omega

theorem toU32_duration (D : ℤ) (hD : 0 < D) (hrep : 1000 * D < 2 ^ 31) :
    ((toU32 (D * 1000) : ℕ) : ℤ) = 1000 * D := by
  unfold toU32
  norm_num at hrep ⊢
  omega

theorem updateHistoricalData_control (s : State) (r : Flt) :
    (updateHistoricalData s r).bulb1State = s.bulb1State ∧
    (updateHistoricalData s r).bulb2State = s.bulb2State ∧
    (updateHistoricalData s r).relay1 = s.relay1 ∧
    (updateHistoricalData s r).relay2 = s.relay2 ∧
    (updateHistoricalData s r).isScheduled = s.isScheduled ∧
    (updateHistoricalData s r).scheduledTime = s.scheduledTime ∧
    (updateHistoricalData s r).relayOnTime = s.relayOnTime := by
  unfold updateHistoricalData
  dsimp only
  split <;> simp

theorem armedAt_schedule (s : State) (D : ℤ) (T : ℕ) :
    ArmedAt D T (handleScheduleTime s (some D) T).1 := by
  simp [ArmedAt, handleScheduleTime, handleTurnOnAll, setLEDs]

theorem armedAt_tick (s : State) (D : ℤ) (T t : ℕ) (r : Flt) (h : ArmedAt D T s)
    (hD : 0 < D) (hrep : 1000 * D < 2 ^ 31) (hT : T ≤ t)
    (hlt : ((t - T : ℕ) : ℤ) < 1000 * D) :
    ArmedAt D T (loop s none t r).1 := by
  obtain ⟨h1, h2, h3, h4, h5, h6, h7⟩ := h
  have hr : t - T < 2 ^ 32 := by
    norm_num at hrep ⊢
    omega
  have hsub := subU32_millis t T hT hr
  have hthr := toU32_duration D hD hrep
  have hno : ¬ (toU32 (D * 1000) ≤ subU32 (millis t) (millis T)) := by
    rw [hsub]
    omega
  unfold loop
  simp only [handleClient, h5, h6, h7, hno, Bool.true_and, decide_False, Bool.false_eq_true,
    if_false]
  split_ifs <;>
    simp [ArmedAt, handleHistoricalData, updateHistoricalData_control, h1, h2, h3, h4, h5, h6, h7]

theorem expired_tick (s : State) (D : ℤ) (T t : ℕ) (r : Flt) (h : ArmedAt D T s)
    (hD : 0 < D) (hrep : 1000 * D < 2 ^ 31) (hT : T ≤ t)
    (hge : 1000 * D ≤ ((t - T : ℕ) : ℤ)) (hr : t - T < 2 ^ 32) :
    (loop s none t r).1.bulb1State = false ∧ (loop s none t r).1.bulb2State = false ∧
    (loop s none t r).1.relay1 = false ∧ (loop s none t r).1.relay2 = false ∧
    (loop s none t r).1.isScheduled = false := by
  obtain ⟨h1, h2, h3, h4, h5, h6, h7⟩ := h
  have hsub := subU32_millis t T hT hr
  have hthr := toU32_duration D hD hrep
  have hyes : toU32 (D * 1000) ≤ subU32 (millis t) (millis T) := by
    rw [hsub]
    omega
  unfold loop
  simp only [handleClient, h5, h6, h7, hyes, Bool.true_and, decide_True, if_true]
  split_ifs <;>
    simp [handleTurnOffAll, setLEDs, handleHistoricalData, updateHistoricalData_control]

theorem armedAt_runLoop (D : ℤ) (T : ℕ) (hD : 0 < D) (hrep : 1000 * D < 2 ^ 31)
    (ticks : List (ℕ × Flt)) (s : State) (h : ArmedAt D T s)
    (hbefore : ∀ x ∈ ticks, T ≤ x.1 ∧ ((x.1 - T : ℕ) : ℤ) < 1000 * D) :
    ArmedAt D T (runLoop s (ticks.map fun x => tick x.1 x.2)) := by
  induction ticks generalizing s with
  | nil => simpa [runLoop] using h
  | cons x xs ih =>
    have hx := hbefore x (List.mem_cons_self _ _)
    have hs := armedAt_tick s D T x.1 x.2 h hD hrep hx.1 hx.2
    have := ih (loop s none x.1 x.2).1 hs (fun y hy => hbefore y (List.mem_cons_of_mem _ hy))
    simpa [runLoop, tick] using this

/-- C3: a schedule request with positive duration `D` seconds, `1000 * D`
representable as an `int`, is handled at uptime `T` ms; the run then consists of
`loop` passes without requests. After any such passes at times `x` with
`x - T < 1000 * D` both outlets are on and the timer is armed; a following pass
at a time `t` with `1000 * D ≤ t - T` (the elapsed time within the 32-bit range
of the millisecond counter) leaves both outlets off and the timer disarmed. -/
theorem auto_off_timing (s : State) (D : ℤ) (T : ℕ) (hD : 0 < D) (hrep : 1000 * D < 2 ^ 31)
    (ticks : List (ℕ × Flt))
    (hbefore : ∀ x ∈ ticks, T ≤ x.1 ∧ ((x.1 - T : ℕ) : ℤ) < 1000 * D)
    (t : ℕ) (r : Flt) (hT : T ≤ t) (hge : 1000 * D ≤ ((t - T : ℕ) : ℤ))
    (hr : t - T < 2 ^ 32) :
    ((runLoop (handleScheduleTime s (some D) T).1
        (ticks.map fun x => tick x.1 x.2)).bulb1State = true ∧
     (runLoop (handleScheduleTime s (some D) T).1
        (ticks.map fun x => tick x.1 x.2)).bulb2State = true ∧
     (runLoop (handleScheduleTime s (some D) T).1
        (ticks.map fun x => tick x.1 x.2)).isScheduled = true) ∧
    ((loop (runLoop (handleScheduleTime s (some D) T).1
        (ticks.map fun x => tick x.1 x.2)) none t r).1.bulb1State = false ∧
     (loop (runLoop (handleScheduleTime s (some D) T).1
        (ticks.map fun x => tick x.1 x.2)) none t r).1.bulb2State = false ∧
     (loop (runLoop (handleScheduleTime s (some D) T).1
        (ticks.map fun x => tick x.1 x.2)) none t r).1.isScheduled = false) := by
  have ha := armedAt_runLoop D T hD hrep ticks _ (armedAt_schedule s D T) hbefore
  have he := expired_tick _ D T t r ha hD hrep hT hge hr
  exact ⟨⟨ha.1, ha.2.1, ha.2.2.2.2.1⟩, ⟨he.1, he.2.1, he.2.2.2.2⟩⟩

theorem auto_off_timing_witness :
    ((0 : ℤ) < 10 ∧ (1000 * 10 : ℤ) < 2 ^ 31 ∧ (0 : ℕ) ≤ 9900 ∧
      (((9900 - 0 : ℕ) : ℤ) < 1000 * 10) ∧ (1000 * 10 : ℤ) ≤ ((10100 - 0 : ℕ) : ℤ) ∧
      10100 - 0 < 2 ^ 32) ∧
    ((runLoop (handleScheduleTime boot (some 10) 0).1
        ([(9900, Flt.fin 0)].map fun x => tick x.1 x.2)).bulb1State = true ∧
     (runLoop (handleScheduleTime boot (some 10) 0).1
        ([(9900, Flt.fin 0)].map fun x => tick x.1 x.2)).bulb2State = true ∧
     (runLoop (handleScheduleTime boot (some 10) 0).1
        ([(9900, Flt.fin 0)].map fun x => tick x.1 x.2)).isScheduled = true) ∧
    ((loop (runLoop (handleScheduleTime boot (some 10) 0).1
        ([(9900, Flt.fin 0)].map fun x => tick x.1 x.2)) none 10100 (Flt.fin 0)).1.bulb1State
        = false ∧
     (loop (runLoop (handleScheduleTime boot (some 10) 0).1
        ([(9900, Flt.fin 0)].map fun x => tick x.1 x.2)) none 10100 (Flt.fin 0)).1.bulb2State
        = false ∧
     (loop (runLoop (handleScheduleTime boot (some 10) 0).1
        ([(9900, Flt.fin 0)].map fun x => tick x.1 x.2)) none 10100 (Flt.fin 0)).1.isScheduled
        = false) :=
  ⟨by decide, auto_off_timing boot 10 0 (by decide) (by decide) [(9900, Flt.fin 0)]
    (by simp) 10100 (Flt.fin 0) (by decide) (by decide) (by decide)⟩

/-! ## History ring -/

theorem sampleWith_history (s : State) (i : SampleInput) :
    (sampleWith s i).history = s.history.set s.historyIndex.toNat (rowOf i) ∧
    (sampleWith s i).historyIndex = Int.tmod (s.historyIndex + 1) maxHistoryRows := by
  unfold rowOf sampleWith updateHistoricalData State.historyAt
  dsimp only
  split <;> simp [boot]

/-- The ring after the samples `cs`, taken from cursor `0`: the cursor is the
number of samples modulo ten and sample number `k` (from `0`), when it is among
the last ten, sits in slot `k % 10`; a slot no sample has reached is as it was. -/
theorem runSamples_ring (s0 : State) (hlen : s0.history.length = 10)
    (hidx : s0.historyIndex = 0) (cs : List SampleInput) :
    (runSamples s0 cs).history.length = 10 ∧
    (runSamples s0 cs).historyIndex = ((cs.length % 10 : ℕ) : ℤ) ∧
    (∀ k, k < cs.length → cs.length ≤ k + 10 →
      (runSamples s0 cs).history[k % 10]? = cs[k]?.map rowOf) ∧
    (∀ j, cs.length ≤ j → (runSamples s0 cs).history[j]? = s0.history[j]?) := by
  induction cs using List.reverseRecOn with
  | nil => simp [runSamples, hlen, hidx]
  | append_singleton cs c ih =>
    obtain ⟨ih1, ih2, ih3, ih4⟩ := ih
    have hrun : runSamples s0 (cs ++ [c]) = sampleWith (runSamples s0 cs) c := by
      simp [runSamples, List.foldl_append]
    obtain ⟨hh, hi⟩ := sampleWith_history (runSamples s0 cs) c
    rw [hrun, hh, hi, ih2]
    have hto : (((cs.length % 10 : ℕ) : ℤ)).toNat = cs.length % 10 := by omega
    rw [hto]
    refine ⟨by simp [ih1], ?_, ?_, ?_⟩
    · simp only [maxHistoryRows, List.length_append, List.length_singleton]
      have h1 : (0 : ℤ) ≤ ((cs.length % 10 : ℕ) : ℤ) + 1 := by positivity
      rw [Int.tmod_eq_emod h1 (by norm_num)]
      omega
    · intro k hk hk10
      simp only [List.length_append, List.length_singleton] at hk hk10
      by_cases hkl : k = cs.length
      · subst hkl
        simp [ih1, Nat.mod_lt]
      · have hk2 : k < cs.length := by omega
        have hne : cs.length % 10 ≠ k % 10 := by omega
        rw [List.getElem?_set_ne hne, ih3 k hk2 (by omega), List.getElem?_append_left hk2]
    · intro j hj
      simp only [List.length_append, List.length_singleton] at hj
      have hne : cs.length % 10 ≠ j := by omega
      rw [List.getElem?_set_ne hne]
      exact ih4 j (by omega)

theorem readRows_length (s : State) : (readRows s).length = 10 := by
  simp [readRows, maxHistoryRows]

theorem readRows_getElem? (s : State) (i : ℕ) (hi : i < 10) :
    (readRows s)[i]? = some (s.historyAt (readIndex s i)) := by
  simp [readRows, maxHistoryRows, List.getElem?_range hi]

theorem readIndex_runSamples (s0 : State) (hlen : s0.history.length = 10)
    (hidx : s0.historyIndex = 0) (cs : List SampleInput) (i : ℕ) (hi : i < 10) :
    (readIndex (runSamples s0 cs) i).toNat = (cs.length + 9 - i) % 10 := by
  obtain ⟨-, h2, -, -⟩ := runSamples_ring s0 hlen hidx cs
  unfold readIndex
  rw [h2]
  simp only [maxHistoryRows]
  have h1 : (0 : ℤ) ≤ ((cs.length % 10 : ℕ) : ℤ) - 1 - (i : ℤ) + 10 := by omega
  rw [Int.tmod_eq_emod h1 (by norm_num)]
  omega

/-! ## Rounding -/

theorem roundHalfEven_sub_le (m : ℚ) : |(roundHalfEven m : ℚ) - m| ≤ 1 / 2 := by
  have h1 := Int.floor_le m
  have h2 := Int.lt_floor_add_one m
  unfold roundHalfEven
  split_ifs with ha hb hc
  · rw [abs_le]; constructor <;> linarith
  · rw [abs_le]; push_cast; constructor <;> linarith
  · rw [abs_le]; constructor <;> linarith
  · rw [abs_le]; push_cast; constructor <;> linarith

theorem roundHalfEven_eq (m : ℚ) (n : ℤ) (h : |(n : ℚ) - m| < 1 / 2) : roundHalfEven m = n := by
  rw [abs_sub_lt_iff] at h
  obtain ⟨h1, h2⟩ := h
  unfold roundHalfEven
  rcases le_or_lt (n : ℚ) m with hle | hlt
  · have hf : ⌊m⌋ = n := Int.floor_eq_iff.mpr ⟨hle, by linarith⟩
    rw [hf]
    have : m - (n : ℚ) < 1 / 2 := by linarith
    rw [if_pos this]
  · have hf : ⌊m⌋ = n - 1 := Int.floor_eq_iff.mpr ⟨by push_cast; linarith, by push_cast; linarith⟩
    rw [hf]
    have h3 : ¬ (m - ((n - 1 : ℤ) : ℚ) < 1 / 2) := by push_cast; linarith
    have h4 : 1 / 2 < m - ((n - 1 : ℤ) : ℚ) := by push_cast; linarith
    rw [if_neg h3, if_pos h4]
    ring

theorem log_two_eq (q : ℚ) (e : ℤ) (hq : 0 < q) (h1 : (2 : ℚ) ^ e ≤ q) (h2 : q < (2 : ℚ) ^ (e + 1)) :
    Int.log 2 q = e := by
  have a : e ≤ Int.log 2 q := (Int.zpow_le_iff_le_log (by norm_num) hq).mp (by exact_mod_cast h1)
  have b : Int.log 2 q < e + 1 := (Int.lt_zpow_iff_log_lt (by norm_num) hq).mp (by exact_mod_cast h2)
  omega

/-- Evaluation of `rne` at a positive value from the exponent `e` of its
leading bit and an integer `n` within half a unit of the scaled value. -/
theorem rne_eval (p : ℕ) (emin emax : ℤ) (q : ℚ) (e n : ℤ) (hq : 0 < q)
    (h1 : (2 : ℚ) ^ e ≤ q) (h2 : q < (2 : ℚ) ^ (e + 1)) (hmin : emin ≤ e)
    (hn : |(n : ℚ) - q / 2 ^ (e - ((p : ℤ) - 1))| < 1 / 2)
    (hmax : (n : ℚ) * 2 ^ (e - ((p : ℤ) - 1)) < 2 ^ (emax + 1))
    (hpos : 0 ≤ n) :
    rne p emin emax q = .fin ((n : ℚ) * 2 ^ (e - ((p : ℤ) - 1))) := by
  unfold rne
  have hlog : Int.log 2 |q| = e := by rw [abs_of_pos hq]; exact log_two_eq q e hq h1 h2
  have hu : (0 : ℚ) < 2 ^ (e - ((p : ℤ) - 1)) := zpow_pos (by norm_num) _
  have hv : (0 : ℚ) ≤ (n : ℚ) * 2 ^ (e - ((p : ℤ) - 1)) :=
    mul_nonneg (by exact_mod_cast hpos) hu.le
  simp only [hq.ne', if_false, hlog, max_eq_left hmin, roundHalfEven_eq _ n hn, abs_of_nonneg hv,
    not_le.mpr hmax]

/-- Relative error of `rne` on a positive value in the normal range that is too
small to overflow: the result is finite and within `2 ^ (-p)` of `q`, relatively. -/
theorem rne_pos_bounds (p : ℕ) (emin emax : ℤ) (q : ℚ) (hq : 0 < q)
    (hmin : (2 : ℚ) ^ emin ≤ q) (hmax : q < (2 : ℚ) ^ emax) :
    ∃ v : ℚ, rne p emin emax q = .fin v ∧
      q * (1 - 2 ^ (-(p : ℤ))) ≤ v ∧ v ≤ q * (1 + 2 ^ (-(p : ℤ))) := by
  have h2 : (2 : ℚ) ≠ 0 := by norm_num
  have hlo : (2 : ℚ) ^ Int.log 2 q ≤ q := by
    have := Int.zpow_log_le_self (R := ℚ) (b := 2) (r := q) (by norm_num) hq
    exact_mod_cast this
  have hemin : emin ≤ Int.log 2 q :=
    (Int.zpow_le_iff_le_log (by norm_num) hq).mp (by exact_mod_cast hmin)
  set e := Int.log 2 q with he
  set ulp : ℚ := 2 ^ (e - ((p : ℤ) - 1)) with hulp
  have hu : 0 < ulp := zpow_pos (by norm_num) _
  have hhalf : ulp / 2 ≤ q * 2 ^ (-(p : ℤ)) := by
    have : ulp / 2 = 2 ^ e * 2 ^ (-(p : ℤ)) := by
      rw [hulp, ← zpow_add₀ h2, show e - ((p : ℤ) - 1) = (e + -(p : ℤ)) + 1 by ring,
        zpow_add_one₀ h2]
      ring
    rw [this]
    exact mul_le_mul_of_nonneg_right hlo (zpow_pos (by norm_num) _).le
  have hr := roundHalfEven_sub_le (q / ulp)
  set n : ℚ := (roundHalfEven (q / ulp) : ℚ) with hn
  have hv : |n * ulp - q| ≤ ulp / 2 := by
    have : n * ulp - q = (n - q / ulp) * ulp := by field_simp
    rw [this, abs_mul, abs_of_pos hu]
    calc |n - q / ulp| * ulp ≤ 1 / 2 * ulp := mul_le_mul_of_nonneg_right hr hu.le
      _ = ulp / 2 := by ring
  rw [abs_le] at hv
  have hp1 : (2 : ℚ) ^ (-(p : ℤ)) ≤ 1 := by
    have := zpow_le_zpow_right₀ (a := (2 : ℚ)) (by norm_num) (show -(p : ℤ) ≤ 0 by omega)
    simpa using this
  have hp0 : (0 : ℚ) < 2 ^ (-(p : ℤ)) := zpow_pos (by norm_num) _
  have hvlo : q * (1 - 2 ^ (-(p : ℤ))) ≤ n * ulp := by linarith
  have hvhi : n * ulp ≤ q * (1 + 2 ^ (-(p : ℤ))) := by linarith
  have hv0 : 0 ≤ n * ulp := le_trans (mul_nonneg hq.le (by linarith)) hvlo
  have hov : n * ulp < 2 ^ (emax + 1) := by
    have h3 : q * (1 + 2 ^ (-(p : ℤ))) ≤ q * 2 := by
      apply mul_le_mul_of_nonneg_left _ hq.le
      linarith
    have h4 : (2 : ℚ) ^ (emax + 1) = 2 ^ emax * 2 := zpow_add_one₀ h2 emax
    rw [h4]
    linarith
  refine ⟨n * ulp, ?_, hvlo, hvhi⟩
  unfold rne
  simp only [hq.ne', if_false, abs_of_pos hq, ← he, max_eq_left hemin, ← hulp, ← hn,
    abs_of_nonneg hv0, not_le.mpr hov]

theorem lit_0_09_eq : lit_0_09 = .fin (3242591731706757 / 36028797018963968) := by
  unfold lit_0_09 rne64
  rw [rne_eval 53 (-1022) 1023 (9 / 100) (-4) 6485183463413514 (by norm_num) (by norm_num)
    (by norm_num) (by norm_num) (by norm_num [abs_lt]) (by norm_num) (by norm_num)]
  norm_num

/-- No binary32 value lies between the `double` literal `0.09` and the real
number `0.09`: a `float` below `9 / 100` is below the literal. -/
theorem floatOfBits_lt_lit (w : ℕ) (h : Flt.lt (floatOfBits w) (.fin (9 / 100)) = true) :
    Flt.lt (floatOfBits w) lit_0_09 = true := by
  rw [lit_0_09_eq]
  unfold floatOfBits at h ⊢
  have hf : w % 2 ^ 23 < 2 ^ 23 := Nat.mod_lt _ (by norm_num)
  have he : w / 2 ^ 23 % 256 < 256 := Nat.mod_lt _ (by norm_num)
  generalize w % 2 ^ 23 = f at h hf ⊢
  generalize w / 2 ^ 23 % 256 = e at h he ⊢
  generalize w / 2 ^ 31 % 2 = sg at h ⊢
  have hfq : (f : ℚ) < 2 ^ 23 := by exact_mod_cast hf
  have hf0 : (0 : ℚ) ≤ f := Nat.cast_nonneg f
  dsimp only at h ⊢
  by_cases he255 : e = 255
  · simp only [he255, if_true] at h ⊢
    by_cases hf0 : f = 0
    · simp only [hf0, if_true] at h ⊢
      by_cases hs : sg = 1
      · simp [hs, Flt.lt]
      · simp [hs, Flt.lt] at h
    · simp [hf0, Flt.lt] at h
  · simp only [he255, if_false] at h ⊢
    by_cases he0 : e = 0
    · simp only [he0, if_true, Flt.lt, decide_eq_true_eq] at h ⊢
      have hp : (0 : ℚ) < 2 ^ (-149 : ℤ) := zpow_pos (by norm_num) _
      have h1 : (if sg = 1 then (-1 : ℚ) else 1) * f * 2 ^ (-149 : ℤ) ≤ f * 2 ^ (-149 : ℤ) := by
        apply mul_le_mul_of_nonneg_right _ hp.le
        split_ifs <;> linarith
      have h2 : (f : ℚ) * 2 ^ (-149 : ℤ) < 2 ^ 23 * 2 ^ (-149 : ℤ) :=
        mul_lt_mul_of_pos_right hfq hp
      have h3 : (2 : ℚ) ^ 23 * 2 ^ (-149 : ℤ) < 3242591731706757 / 36028797018963968 := by
        norm_num
      exact lt_of_le_of_lt h1 (lt_trans h2 h3)
    · simp only [he0, if_false, Flt.lt, decide_eq_true_eq] at h ⊢
      have hp : (0 : ℚ) < 2 ^ ((e : ℤ) - 150) := zpow_pos (by norm_num) _
      have hm : (0 : ℚ) < 2 ^ 23 + f := by positivity
      by_cases hs : sg = 1
      · simp only [hs, if_true]
        have : (-1 : ℚ) * (2 ^ 23 + f) * 2 ^ ((e : ℤ) - 150) < 0 := by
          have := mul_pos hm hp
          linarith
        linarith [show (0 : ℚ) < 3242591731706757 / 36028797018963968 by norm_num]
      · simp only [hs, if_false, one_mul] at h ⊢
        rcases Nat.lt_trichotomy e 123 with hlt | heq | hgt
        · have hpow : (2 : ℚ) ^ ((e : ℤ) - 150) ≤ 2 ^ (-28 : ℤ) :=
            zpow_le_zpow_right₀ (by norm_num) (by omega)
          have h1 : (2 ^ 23 + (f : ℚ)) * 2 ^ ((e : ℤ) - 150) ≤ (2 ^ 23 + f) * 2 ^ (-28 : ℤ) :=
            mul_le_mul_of_nonneg_left hpow hm.le
          have h2 : (2 ^ 23 + (f : ℚ)) * 2 ^ (-28 : ℤ) < (2 ^ 23 + 2 ^ 23) * 2 ^ (-28 : ℤ) :=
            mul_lt_mul_of_pos_right (by linarith) (zpow_pos (by norm_num) _)
          have h3 : ((2 : ℚ) ^ 23 + 2 ^ 23) * 2 ^ (-28 : ℤ)
              < 3242591731706757 / 36028797018963968 := by norm_num
          exact lt_of_le_of_lt h1 (lt_trans h2 h3)
        · subst heq
          have hval : (2 : ℚ) ^ (((123 : ℕ) : ℤ) - 150) = 1 / 2 ^ 27 := by norm_num
          rw [hval] at h ⊢
          have hnat : (2 ^ 23 + f) * 100 < 9 * 2 ^ 27 := by
            have h' : (2 ^ 23 + (f : ℚ)) * 100 < 9 * 2 ^ 27 := by
              have := h
              rw [mul_one_div, div_lt_div_iff₀ (by norm_num) (by norm_num)] at this
              linarith
            exact_mod_cast h'
          have hle : 2 ^ 23 + f ≤ 12079595 := by
            norm_num at hnat ⊢
            omega
          have hleq : (2 : ℚ) ^ 23 + f ≤ 12079595 := by exact_mod_cast hle
          have : (2 ^ 23 + (f : ℚ)) * (1 / 2 ^ 27) ≤ 12079595 * (1 / 2 ^ 27) :=
            mul_le_mul_of_nonneg_right hleq (by norm_num)
          have h3 : (12079595 : ℚ) * (1 / 2 ^ 27) < 3242591731706757 / 36028797018963968 := by
            norm_num
          linarith
        · exfalso
          have hpow : (2 : ℚ) ^ (-26 : ℤ) ≤ 2 ^ ((e : ℤ) - 150) :=
            zpow_le_zpow_right₀ (by norm_num) (by omega)
          have h1 : (2 ^ 23 + (f : ℚ)) * 2 ^ (-26 : ℤ) ≤ (2 ^ 23 + f) * 2 ^ ((e : ℤ) - 150) :=
            mul_le_mul_of_nonneg_left hpow hm.le
          have h2 : (2 : ℚ) ^ 23 * 2 ^ (-26 : ℤ) ≤ (2 ^ 23 + (f : ℚ)) * 2 ^ (-26 : ℤ) :=
            mul_le_mul_of_nonneg_right (by linarith) (zpow_pos (by norm_num) _).le
          have h3 : (9 : ℚ) / 100 < 2 ^ 23 * 2 ^ (-26 : ℤ) := by norm_num
          exact absurd (lt_of_lt_of_le h3 (le_trans h2 h1)) (not_lt.mpr h.le)

/-! ## Noise floor -/

theorem rne_zero (p : ℕ) (emin emax : ℤ) : rne p emin emax 0 = .fin 0 := by
  simp [rne]

theorem updateHistoricalData_row (s : State) (r : Flt) :
    (updateHistoricalData s r).history
      = s.history.set s.historyIndex.toNat (rowOf (inputOf s r)) :=
  (sampleWith_history s (inputOf s r)).1

theorem rowOf_clamped (i : SampleInput) (h : Flt.lt i.reading lit_0_09 = true) :
    (rowOf i).roundedCurrent = .fin 0 ∧ (rowOf i).roundedPower = .fin 0 := by
  unfold rowOf sampleWith updateHistoricalData State.historyAt
  simp [h, boot, floor4, floor2, voltageSupply, Flt.mulWith, Flt.divWith, Flt.floor, Flt.toFloat,
    rne32, rne64, rne_zero]

theorem rowOf_unclamped (i : SampleInput) (h : Flt.lt i.reading lit_0_09 = false) :
    (rowOf i).roundedCurrent = Flt.toFloat (floor4 i.reading) ∧
    (rowOf i).roundedPower
      = Flt.toFloat (floor2 (Flt.mulWith rne32 voltageSupply i.reading)) := by
  unfold rowOf sampleWith updateHistoricalData State.historyAt
  simp [h, boot]

theorem not_lt_lit_of_le (r : Flt) (h : Flt.le (.fin (9 / 100)) r = true) :
    Flt.lt r lit_0_09 = false := by
  rw [lit_0_09_eq]
  cases r with
  | fin q =>
    simp only [Flt.le, decide_eq_true_eq] at h
    simp only [Flt.lt, decide_eq_false_iff_not, not_lt]
    have : (3242591731706757 : ℚ) / 36028797018963968 ≤ 9 / 100 := by norm_num
    linarith
  | pinf => rfl
  | ninf => simp [Flt.le] at h
  | nan => simp [Flt.le] at h

/-- C8: `updateHistoricalData` writes the row `rowOf` at the cursor. For every
binary32 sensor value (given by its bit pattern `w`): if the value is below
`0.09` the row stores current exactly `0` and power exactly `0`; if it is
`0.09` or more it is not clamped, the stored current is the truncation
`floor(r * 10000) / 10000.0` of the value itself and the stored power the
truncation of `220 * r`. -/
theorem noise_floor (s : State) (w : ℕ) :
    (updateHistoricalData s (floatOfBits w)).history
      = s.history.set s.historyIndex.toNat (rowOf (inputOf s (floatOfBits w))) ∧
    (Flt.lt (floatOfBits w) (.fin (9 / 100)) = true →
      (rowOf (inputOf s (floatOfBits w))).roundedCurrent = .fin 0 ∧
      (rowOf (inputOf s (floatOfBits w))).roundedPower = .fin 0) ∧
    (Flt.le (.fin (9 / 100)) (floatOfBits w) = true →
      (rowOf (inputOf s (floatOfBits w))).roundedCurrent
        = Flt.toFloat (floor4 (floatOfBits w)) ∧
      (rowOf (inputOf s (floatOfBits w))).roundedPower
        = Flt.toFloat (floor2 (Flt.mulWith rne32 voltageSupply (floatOfBits w)))) :=
  ⟨updateHistoricalData_row s _,
   fun h => rowOf_clamped _ (floatOfBits_lt_lit w h),
   fun h => rowOf_unclamped _ (not_lt_lit_of_le _ h)⟩

theorem floatOfBits_0_05 : floatOfBits 0x3D4CCCCD = .fin (13421773 / 268435456) := by
  norm_num [floatOfBits]

theorem floatOfBits_0_15 : floatOfBits 0x3E19999A = .fin (5033165 / 33554432) := by
  norm_num [floatOfBits]

theorem noise_floor_witness :
    (Flt.lt (floatOfBits 0x3D4CCCCD) (.fin (9 / 100)) = true ∧
      (rowOf (inputOf boot (floatOfBits 0x3D4CCCCD))).roundedCurrent = .fin 0 ∧
      (rowOf (inputOf boot (floatOfBits 0x3D4CCCCD))).roundedPower = .fin 0) ∧
    (Flt.le (.fin (9 / 100)) (floatOfBits 0x3E19999A) = true ∧
      (rowOf (inputOf boot (floatOfBits 0x3E19999A))).roundedCurrent
        = Flt.toFloat (floor4 (floatOfBits 0x3E19999A))) := by
  have h1 : Flt.lt (floatOfBits 0x3D4CCCCD) (.fin (9 / 100)) = true := by
    rw [floatOfBits_0_05]
    norm_num [Flt.lt]
  have h2 : Flt.le (.fin (9 / 100)) (floatOfBits 0x3E19999A) = true := by
    rw [floatOfBits_0_15]
    norm_num [Flt.le]
  exact ⟨⟨h1, (noise_floor boot 0x3D4CCCCD).2.1 h1⟩, h2, ((noise_floor boot 0x3E19999A).2.2 h2).1⟩

/-! ## Quantisation -/

/-- The truncation `floor(x * S) / S` as the program computes it, stored into a
`float`: product rounded to binary32, quotient rounded to binary64, then
rounded to binary32. For `x` and `S` in range the result is finite and lies
within the stated rounding errors of the exact truncation. -/
theorem truncate_bounds (x S : ℚ) (hS1 : 1 ≤ S) (hS2 : S ≤ 10000) (hx : 2 ≤ x * S)
    (hx2 : x ≤ 2 ^ 110) :
    ∃ c : ℚ,
      Flt.toFloat (Flt.divWith rne64 (Flt.floor (Flt.mulWith rne32 (.fin x) (.fin S))) (.fin S))
        = .fin c ∧
      c ≤ x * (1 + 1 / 2 ^ 24) * (1 + 1 / 2 ^ 53) * (1 + 1 / 2 ^ 24) ∧
      (x * (1 - 1 / 2 ^ 24) - 1 / S) * (1 - 1 / 2 ^ 53) * (1 - 1 / 2 ^ 24) ≤ c := by
  have hS0 : 0 < S := by linarith
  have hx0 : 0 < x := by
    by_contra h
    push_neg at h
    nlinarith
  have hxS : x * S ≤ 2 ^ 110 * 10000 := by
    calc x * S ≤ 2 ^ 110 * S := mul_le_mul_of_nonneg_right hx2 hS0.le
      _ ≤ 2 ^ 110 * 10000 := mul_le_mul_of_nonneg_left hS2 (by norm_num)
  -- the product, in binary32
  obtain ⟨v, hv, hvlo, hvhi⟩ := rne_pos_bounds 24 (-126) 127 (x * S) (by linarith)
    (le_trans (by norm_num) hx) (lt_of_le_of_lt hxS (by norm_num))
  norm_num at hvlo hvhi
  have hv1 : 1 ≤ v := by linarith
  -- its floor
  have hk1 : (1 : ℚ) ≤ (⌊v⌋ : ℚ) := by
    have : (1 : ℤ) ≤ ⌊v⌋ := Int.le_floor.mpr (by exact_mod_cast hv1)
    exact_mod_cast this
  have hkle : (⌊v⌋ : ℚ) ≤ v := Int.floor_le v
  have hklt : v - 1 < (⌊v⌋ : ℚ) := by linarith [Int.lt_floor_add_one v]
  -- the quotient, in binary64
  have hq0 : 0 < (⌊v⌋ : ℚ) / S := div_pos (by linarith) hS0
  have hqlo : 1 / 10000 ≤ (⌊v⌋ : ℚ) / S := by
    rw [le_div_iff₀ hS0]
    linarith
  have hqhi : (⌊v⌋ : ℚ) / S ≤ x * (16777217 / 16777216) := by
    rw [div_le_iff₀ hS0]
    linarith
  have hqhi2 : (⌊v⌋ : ℚ) / S ≤ 2 ^ 111 := by
    have : x * (16777217 / 16777216) ≤ 2 ^ 110 * 2 := by
      calc x * (16777217 / 16777216) ≤ 2 ^ 110 * (16777217 / 16777216) :=
            mul_le_mul_of_nonneg_right hx2 (by norm_num)
        _ ≤ 2 ^ 110 * 2 := by norm_num
    linarith
  obtain ⟨y, hy, hylo, hyhi⟩ := rne_pos_bounds 53 (-1022) 1023 ((⌊v⌋ : ℚ) / S) hq0
    (le_trans (by norm_num) hqlo) (lt_of_le_of_lt hqhi2 (by norm_num))
  norm_num at hylo hyhi
  -- the store into a float
  have hy0 : 1 / 20000 ≤ y := by linarith
  have hy2 : y ≤ 2 ^ 112 := by linarith
  obtain ⟨c, hc, hclo, hchi⟩ := rne_pos_bounds 24 (-126) 127 y (by linarith)
    (le_trans (by norm_num) hy0) (lt_of_le_of_lt hy2 (by norm_num))
  norm_num at hclo hchi
  refine ⟨c, ?_, ?_, ?_⟩
  · simp only [Flt.mulWith, rne32, hv, Flt.floor, Flt.divWith, hS0.ne', if_false, rne64, hy,
      Flt.toFloat, hc]
  · have e1 : (⌊v⌋ : ℚ) / S ≤ x * (1 + 1 / 2 ^ 24) := by
      norm_num
      linarith
    calc c ≤ y * (1 + 1 / 2 ^ 24) := by norm_num; linarith
      _ ≤ ((⌊v⌋ : ℚ) / S * (1 + 1 / 2 ^ 53)) * (1 + 1 / 2 ^ 24) := by
          apply mul_le_mul_of_nonneg_right _ (by norm_num)
          norm_num
          linarith
      _ ≤ (x * (1 + 1 / 2 ^ 24) * (1 + 1 / 2 ^ 53)) * (1 + 1 / 2 ^ 24) := by
          apply mul_le_mul_of_nonneg_right _ (by norm_num)
          exact mul_le_mul_of_nonneg_right e1 (by norm_num)
  · have e1 : x * (1 - 1 / 2 ^ 24) - 1 / S ≤ (⌊v⌋ : ℚ) / S := by
      rw [le_div_iff₀ hS0]
      have : (x * (1 - 1 / 2 ^ 24) - 1 / S) * S = x * S * (1 - 1 / 2 ^ 24) - 1 := by
        field_simp
        ring
      rw [this]
      norm_num
      linarith
    calc (x * (1 - 1 / 2 ^ 24) - 1 / S) * (1 - 1 / 2 ^ 53) * (1 - 1 / 2 ^ 24)
        ≤ ((⌊v⌋ : ℚ) / S * (1 - 1 / 2 ^ 53)) * (1 - 1 / 2 ^ 24) := by
          apply mul_le_mul_of_nonneg_right _ (by norm_num)
          exact mul_le_mul_of_nonneg_right e1 (by norm_num)
      _ ≤ y * (1 - 1 / 2 ^ 24) := by
          apply mul_le_mul_of_nonneg_right _ (by norm_num)
          norm_num
          linarith
      _ ≤ c := by norm_num; linarith

theorem rne32_at (q : ℚ) (e n : ℤ)
    (h : 0 < q ∧ (2 : ℚ) ^ e ≤ q ∧ q < 2 ^ (e + 1) ∧ -126 ≤ e ∧
      |(n : ℚ) - q / 2 ^ (e - 23)| < 1 / 2 ∧ (n : ℚ) * 2 ^ (e - 23) < 2 ^ (100 : ℤ) ∧ 0 ≤ n) :
    rne32 q = .fin ((n : ℚ) * 2 ^ (e - 23)) := by
  obtain ⟨h0, h1, h2, h3, h4, h5, h6⟩ := h
  have key := rne_eval 24 (-126) 127 q e n h0 h1 h2 h3
  have e23 : e - (((24 : ℕ) : ℤ) - 1) = e - 23 := by norm_num
  rw [e23] at key
  exact key h4 (lt_of_lt_of_le h5 (zpow_le_zpow_right₀ (by norm_num) (by norm_num))) h6

theorem rne64_at (q : ℚ) (e n : ℤ)
    (h : 0 < q ∧ (2 : ℚ) ^ e ≤ q ∧ q < 2 ^ (e + 1) ∧ -1022 ≤ e ∧
      |(n : ℚ) - q / 2 ^ (e - 52)| < 1 / 2 ∧ (n : ℚ) * 2 ^ (e - 52) < 2 ^ (100 : ℤ) ∧ 0 ≤ n) :
    rne64 q = .fin ((n : ℚ) * 2 ^ (e - 52)) := by
  obtain ⟨h0, h1, h2, h3, h4, h5, h6⟩ := h
  have key := rne_eval 53 (-1022) 1023 q e n h0 h1 h2 h3
  have e52 : e - (((53 : ℕ) : ℤ) - 1) = e - 52 := by norm_num
  rw [e52] at key
  exact key h4 (lt_of_lt_of_le h5 (zpow_le_zpow_right₀ (by norm_num) (by norm_num))) h6

/-- Evaluation of the stored truncation from the values of its three roundings. -/
theorem truncate_at (x S v1 v2 v3 : ℚ) (k : ℤ) (hS : S ≠ 0) (h1 : rne32 (x * S) = .fin v1)
    (hk : ⌊v1⌋ = k) (h2 : rne64 ((k : ℚ) / S) = .fin v2) (h3 : rne32 v2 = .fin v3) :
    Flt.divWith rne64 (Flt.floor (Flt.mulWith rne32 (.fin x) (.fin S))) (.fin S) = .fin v2 ∧
    Flt.toFloat (Flt.divWith rne64 (Flt.floor (Flt.mulWith rne32 (.fin x) (.fin S))) (.fin S))
      = .fin v3 := by
  simp only [Flt.mulWith, h1, Flt.floor, hk, Flt.divWith, hS, if_false, h2, Flt.toFloat, h3,
    and_self]

theorem floatOfBits_r0 : floatOfBits 0x404D3C82 = .fin (6725185 / 2097152) := by
  norm_num [floatOfBits]

theorem floatOfBits_r1 : floatOfBits 0x405365FD = .fin (13854205 / 4194304) := by
  norm_num [floatOfBits]

theorem power_r0 :
    Flt.toFloat (floor2 (Flt.mulWith rne32 voltageSupply (.fin (6725185 / 2097152))))
      = .fin (1411 / 2) := by
  have a : rne32 (220 * (6725185 / 2097152)) = .fin (1411 / 2) := by
    rw [rne32_at _ 9 11558912 (by norm_num [abs_lt])]
    norm_num
  have b : rne32 (1411 / 2 * 100) = .fin 70550 := by
    rw [rne32_at _ 16 9030400 (by norm_num [abs_lt])]
    norm_num
  have c : rne64 (((70550 : ℤ) : ℚ) / 100) = .fin (1411 / 2) := by
    rw [rne64_at _ 9 6205643627167744 (by norm_num [abs_lt])]
    norm_num
  have d : rne32 (1411 / 2) = .fin (1411 / 2) := by
    rw [rne32_at _ 9 11558912 (by norm_num [abs_lt])]
    norm_num
  simp only [voltageSupply, Flt.mulWith, a, floor2]
  exact (truncate_at (1411 / 2) 100 70550 (1411 / 2) (1411 / 2) 70550 (by norm_num) b
    (by norm_num) c d).2

theorem current_r1 :
    Flt.toFloat (floor4 (.fin (13854205 / 4194304))) = .fin (6927103 / 2097152) := by
  have b : rne32 (13854205 / 4194304 * 10000) = .fin 33031 := by
    rw [rne32_at _ 15 8455936 (by norm_num [abs_lt])]
    norm_num
  have c : rne64 (((33031 : ℤ) : ℚ) / 10000)
      = .fin (7437919964583743 / 2251799813685248) := by
    rw [rne64_at _ 1 7437919964583743 (by norm_num [abs_lt])]
    norm_num
  have d : rne32 (7437919964583743 / 2251799813685248) = .fin (6927103 / 2097152) := by
    rw [rne32_at _ 1 13854206 (by norm_num [abs_lt])]
    norm_num
  exact (truncate_at (13854205 / 4194304) 10000 33031 _ _ 33031 (by norm_num) b
    (by norm_num) c d).2

theorem row_0_15 (s : State) :
    (rowOf (inputOf s (floatOfBits 0x3E19999A))).roundedCurrent = .fin (5033165 / 33554432) ∧
    (rowOf (inputOf s (floatOfBits 0x3E19999A))).roundedPower = .fin 33 ∧
    formatCurrent (.fin (5033165 / 33554432))
      = ⟨.fin (5404319552844595 / 36028797018963968), 4⟩ ∧
    formatPower (.fin 33) = ⟨.fin 33, 2⟩ := by
  have u : Flt.lt (Flt.fin (5033165 / 33554432)) lit_0_09 = false :=
    not_lt_lit_of_le _ (by norm_num [Flt.le])
  have a : rne32 (5033165 / 33554432 * 10000) = .fin 1500 := by
    rw [rne32_at _ 10 12288000 (by norm_num [abs_lt])]
    norm_num
  have b : rne64 (((1500 : ℤ) : ℚ) / 10000)
      = .fin (5404319552844595 / 36028797018963968) := by
    rw [rne64_at _ (-3) 5404319552844595 (by norm_num [abs_lt])]
    norm_num
  have c : rne32 (5404319552844595 / 36028797018963968) = .fin (5033165 / 33554432) := by
    rw [rne32_at _ (-3) 10066330 (by norm_num [abs_lt])]
    norm_num
  have d : rne32 (220 * (5033165 / 33554432)) = .fin 33 := by
    rw [rne32_at _ 5 8650752 (by norm_num [abs_lt])]
    norm_num
  have e : rne32 (33 * 100) = .fin 3300 := by
    rw [rne32_at _ 11 13516800 (by norm_num [abs_lt])]
    norm_num
  have f : rne64 (((3300 : ℤ) : ℚ) / 100) = .fin 33 := by
    rw [rne64_at _ 5 4644337115725824 (by norm_num [abs_lt])]
    norm_num
  have g : rne32 33 = .fin 33 := by
    rw [rne32_at _ 5 8650752 (by norm_num [abs_lt])]
    norm_num
  have tc := truncate_at (5033165 / 33554432) 10000 1500 _ _ 1500 (by norm_num) a
    (by norm_num) b c
  have tp := truncate_at 33 100 3300 _ _ 3300 (by norm_num) e (by norm_num) f g
  rw [floatOfBits_0_15]
  obtain ⟨r1, r2⟩ := rowOf_unclamped (inputOf s (.fin (5033165 / 33554432))) u
  refine ⟨?_, ?_, ?_, ?_⟩
  · rw [r1]
    exact tc.2
  · rw [r2]
    simp only [inputOf, voltageSupply, Flt.mulWith, d, floor2]
    exact tp.2
  · simp only [formatCurrent, floor4, tc.1]
  · simp only [formatPower, floor2, tp.1]

/-! ## Schedule responses -/

/-- C12, the code at the failing input: a schedule request without `value`
(here in the boot state) is answered by two `server.send` calls, first the
`200` confirmation "All bulbs turned on" of `handleTurnOnAll` and only then the
`400` "Missing parameter" error, so one of its responses carries a success
status; a request with `value` is answered `200` twice, the confirmation of
`handleTurnOnAll` and then `"status":"success"`. -/
theorem schedule_missing_value_responses :
    (handleScheduleTime boot none 0).2 =
      [⟨200, "application/json", .text "\x7b\"status\":\"All bulbs turned on\"\x7d"⟩,
       ⟨400, "application/json",
        .text "\x7b\"status\":\"error\", \"message\":\"Missing parameter\"\x7d"⟩] ∧
    (∃ r ∈ (handleScheduleTime boot none 0).2, r.code = 200) ∧
    (handleScheduleTime boot (some 10) 0).2 =
      [⟨200, "application/json", .text "\x7b\"status\":\"All bulbs turned on\"\x7d"⟩,
       ⟨200, "application/json", .text "\x7b\"status\":\"success\"\x7d"⟩] := by
  refine ⟨rfl, ⟨_, List.mem_cons_self _ _, rfl⟩, rfl⟩

/-! ## Counter wrap-around -/

theorem expiryDue_iff (s : State) (D : ℤ) (T t : ℕ) (hD : 0 < 1000 * D)
    (hrep : 1000 * D < 2 ^ 31) (hT : T ≤ t) (he : t - T < 2 ^ 32)
    (h1 : s.isScheduled = true) (h2 : s.scheduledTime = D) (h3 : s.relayOnTime = millis T) :
    expiryDue s t = true ↔ 1000 * D ≤ ((t - T : ℕ) : ℤ) := by
  have hsub := subU32_millis t T hT he
  have hthr := toU32_duration D (by omega) hrep
  unfold expiryDue
  rw [h1, h2, h3, hsub]
  simp only [Bool.true_and, decide_eq_true_eq]
  omega

theorem loop_none_isScheduled (s : State) (t : ℕ) (r : Flt) :
    (loop s none t r).1.isScheduled = (s.isScheduled && !expiryDue s t) := by
  unfold loop expiryDue
  simp only [handleClient]
  cases h1 : s.isScheduled <;>
    cases h2 : decide (toU32 (s.scheduledTime * 1000) ≤ subU32 (millis t) s.relayOnTime) <;>
    simp only [h1, h2, Bool.and_self, Bool.and_true, Bool.and_false, Bool.false_and,
      Bool.true_and, Bool.not_true, Bool.not_false, Bool.false_eq_true, if_false, if_true] <;>
    split_ifs <;>
    simp [handleTurnOffAll, setLEDs, handleHistoricalData, updateHistoricalData_control, h1]

/-- C16: the timer is armed with duration `D` seconds, `0 < 1000 * D < 2 ^ 31`,
since uptime `T`; a pass of `loop` runs at uptime `t ≥ T` with true elapsed time
`t - T < 2 ^ 32`. The expiry test, made on the 32-bit counter values
`millis t` and `millis T` in unsigned arithmetic, holds exactly when
`t - T ≥ 1000 * D`, also when the counter has wrapped between `T` and `t`; the
pass without a request disarms the timer exactly in that case. -/
theorem expiry_wraparound (s : State) (D : ℤ) (T t : ℕ) (r : Flt) (hD : 0 < 1000 * D)
    (hrep : 1000 * D < 2 ^ 31) (hT : T ≤ t) (he : t - T < 2 ^ 32)
    (h1 : s.isScheduled = true) (h2 : s.scheduledTime = D) (h3 : s.relayOnTime = millis T) :
    (expiryDue s t = true ↔ 1000 * D ≤ ((t - T : ℕ) : ℤ)) ∧
    ((loop s none t r).1.isScheduled = false ↔ 1000 * D ≤ ((t - T : ℕ) : ℤ)) := by
  have key := expiryDue_iff s D T t hD hrep hT he h1 h2 h3
  refine ⟨key, ?_⟩
  rw [loop_none_isScheduled, h1, ← key]
  cases expiryDue s t <;> simp

theorem expiry_wraparound_witness :
    ((0 : ℤ) < 1000 * 10 ∧ (1000 * 10 : ℤ) < 2 ^ 31 ∧ 2 ^ 32 - 1000 ≤ 2 ^ 32 + 9500 ∧
      (2 ^ 32 + 9500) - (2 ^ 32 - 1000) < 2 ^ 32 ∧
      millis (2 ^ 32 + 9500) < millis (2 ^ 32 - 1000)) ∧
    expiryDue (handleScheduleTime boot (some 10) (2 ^ 32 - 1000)).1 (2 ^ 32 + 9500) = true ∧
    (loop (handleScheduleTime boot (some 10) (2 ^ 32 - 1000)).1 none (2 ^ 32 + 9500)
      (Flt.fin 0)).1.isScheduled = false := by
  have h := expiry_wraparound (handleScheduleTime boot (some 10) (2 ^ 32 - 1000)).1 10
    (2 ^ 32 - 1000) (2 ^ 32 + 9500) (Flt.fin 0) (by decide) (by decide) (by decide) (by decide)
    rfl rfl rfl
  exact ⟨by decide, h.1.mpr (by decide), h.2.mpr (by decide)⟩

/-! ## Sample step and ring indices -/

theorem rowOf_fields (i : SampleInput) :
    (rowOf i).date = i.date ∧ (rowOf i).time = i.time ∧
    (rowOf i).bulb1State = (if i.bulb1 then "On" else "Off") ∧
    (rowOf i).bulb2State = (if i.bulb2 then "On" else "Off") := by
  unfold rowOf sampleWith updateHistoricalData State.historyAt
  dsimp only
  split <;> simp [boot]

/-- C14: in a state whose cursor is `c < 10` over ten slots, `updateHistoricalData`
puts into slot `c` a row whose date and time are the stored date and time and
whose outlet fields are "On" for an outlet that is on and "Off" for one that is
off; every other slot is as before, the cursor becomes `(c + 1) % 10`, and the
outlet states with their relays, the schedule (armed flag, duration, arm
timestamp) and the clock (date, time, initialised flag) are unchanged. -/
theorem sample_write_step (s : State) (r : Flt) (c : ℕ) (hc : s.historyIndex = (c : ℤ))
    (hc10 : c < 10) (hlen : s.history.length = 10) :
    ((updateHistoricalData s r).history[c]? = some (rowOf (inputOf s r)) ∧
     (rowOf (inputOf s r)).date = s.storedDate ∧
     (rowOf (inputOf s r)).time = s.storedTime ∧
     (rowOf (inputOf s r)).bulb1State = (if s.bulb1State then "On" else "Off") ∧
     (rowOf (inputOf s r)).bulb2State = (if s.bulb2State then "On" else "Off")) ∧
    ((updateHistoricalData s r).history.length = 10 ∧
     ∀ j, j ≠ c → (updateHistoricalData s r).history[j]? = s.history[j]?) ∧
    (updateHistoricalData s r).historyIndex = (((c + 1) % 10 : ℕ) : ℤ) ∧
    ((updateHistoricalData s r).bulb1State = s.bulb1State ∧
     (updateHistoricalData s r).bulb2State = s.bulb2State ∧
     (updateHistoricalData s r).relay1 = s.relay1 ∧
     (updateHistoricalData s r).relay2 = s.relay2) ∧
    ((updateHistoricalData s r).isScheduled = s.isScheduled ∧
     (updateHistoricalData s r).scheduledTime = s.scheduledTime ∧
     (updateHistoricalData s r).relayOnTime = s.relayOnTime) ∧
    ((updateHistoricalData s r).storedDate = s.storedDate ∧
     (updateHistoricalData s r).storedTime = s.storedTime ∧
     (updateHistoricalData s r).timeInitialized = s.timeInitialized) := by
  obtain ⟨hh, hi⟩ := sampleWith_history s (inputOf s r)
  have hsw : sampleWith s (inputOf s r) = updateHistoricalData s r := rfl
  rw [hsw] at hh hi
  have hto : s.historyIndex.toNat = c := by omega
  obtain ⟨f1, f2, f3, f4⟩ := rowOf_fields (inputOf s r)
  obtain ⟨g1, g2, g3, g4, g5, g6, g7⟩ := updateHistoricalData_control s r
  refine ⟨⟨?_, f1, f2, f3, f4⟩, ⟨?_, ?_⟩, ?_, ⟨g1, g2, g3, g4⟩, ⟨g5, g6, g7⟩,
    updateHistoricalData_clock s r⟩
  · rw [hh, hto]
    exact List.getElem?_set_self (by omega)
  · rw [hh, List.length_set, hlen]
  · intro j hj
    rw [hh, hto]
    exact List.getElem?_set_ne (Ne.symm hj)
  · rw [hi, hc]
    simp only [maxHistoryRows]
    rw [Int.tmod_eq_emod (by omega) (by norm_num)]
    omega

theorem sample_write_step_witness :
    (boot.historyIndex = ((0 : ℕ) : ℤ) ∧ 0 < 10 ∧ boot.history.length = 10) ∧
    (updateHistoricalData boot (Flt.fin 0)).history[0]?
      = some (rowOf (inputOf boot (Flt.fin 0))) ∧
    (rowOf (inputOf boot (Flt.fin 0))).date = "2024-11-1" ∧
    (rowOf (inputOf boot (Flt.fin 0))).bulb1State = "Off" ∧
    (updateHistoricalData boot (Flt.fin 0)).historyIndex = 1 :=
  ⟨⟨rfl, by decide, rfl⟩,
    (sample_write_step boot (Flt.fin 0) 0 rfl (by decide) rfl).1.1,
    (sample_write_step boot (Flt.fin 0) 0 rfl (by decide) rfl).1.2.1,
    (sample_write_step boot (Flt.fin 0) 0 rfl (by decide) rfl).1.2.2.2.1,
    (sample_write_step boot (Flt.fin 0) 0 rfl (by decide) rfl).2.2.1⟩

theorem sampleWith_index_bounds (s : State) (i : SampleInput)
    (h : 0 ≤ s.historyIndex ∧ s.historyIndex < 10) :
    0 ≤ (sampleWith s i).historyIndex ∧ (sampleWith s i).historyIndex < 10 := by
  rw [(sampleWith_history s i).2]
  simp only [maxHistoryRows]
  rw [Int.tmod_eq_emod (by omega) (by norm_num)]
  omega

theorem runSamples_index_bounds (cs : List SampleInput) (s : State)
    (h : 0 ≤ s.historyIndex ∧ s.historyIndex < 10) :
    0 ≤ (runSamples s cs).historyIndex ∧ (runSamples s cs).historyIndex < 10 := by
  induction cs generalizing s with
  | nil => simpa [runSamples] using h
  | cons c cs ih =>
    have := ih (sampleWith s c) (sampleWith_index_bounds s c h)
    simpa [runSamples] using this

theorem readIndex_eq (s : State) (i : ℕ) (hi : i < 10)
    (h : 0 ≤ s.historyIndex ∧ s.historyIndex < 10) :
    readIndex s i = (s.historyIndex + 9 - (i : ℤ)) % 10 := by
  unfold readIndex
  simp only [maxHistoryRows]
  rw [Int.tmod_eq_emod (by omega) (by norm_num)]
  congr 1
  ring

/-- C15: the cursor is `0` at boot and within `0 ≤ historyIndex < 10` after any
samples. For such a cursor and every round `i < 10` of the read loop the
dividend `historyIndex - 1 - i + 10` is non-negative (it is `0` for cursor `0`
and `i = 9`), the index read lies in `[0, 10)`, and every slot `j` in `[0, 10)`
is read in exactly one round. -/
theorem ring_indices_in_bounds (cs : List SampleInput) (i : ℕ) (hi : i < 10) :
    boot.historyIndex = 0 ∧
    (0 ≤ (runSamples boot cs).historyIndex ∧ (runSamples boot cs).historyIndex < 10) ∧
    0 ≤ (runSamples boot cs).historyIndex - 1 - (i : ℤ) + maxHistoryRows ∧
    boot.historyIndex - 1 - ((9 : ℕ) : ℤ) + maxHistoryRows = 0 ∧
    (0 ≤ readIndex (runSamples boot cs) i ∧ readIndex (runSamples boot cs) i < 10) ∧
    ∀ j : ℤ, 0 ≤ j → j < 10 →
      ∃! k : ℕ, k < 10 ∧ readIndex (runSamples boot cs) k = j := by
  have hb : 0 ≤ (runSamples boot cs).historyIndex ∧ (runSamples boot cs).historyIndex < 10 :=
    runSamples_index_bounds cs boot ⟨by decide, by decide⟩
  refine ⟨rfl, hb, ?_, rfl, ?_, ?_⟩
  · simp only [maxHistoryRows]
    omega
  · rw [readIndex_eq _ i hi hb]
    omega
  · intro j hj0 hj10
    refine ⟨(((runSamples boot cs).historyIndex + 9 - j) % 10).toNat, ⟨by omega, ?_⟩, ?_⟩
    · rw [readIndex_eq _ _ (by omega) hb]
      omega
    · rintro k ⟨hk, hkj⟩
      rw [readIndex_eq _ k hk hb] at hkj
      omega

theorem ring_indices_in_bounds_witness :
    9 < 10 ∧
    0 ≤ (runSamples boot [sampleNo 1, sampleNo 2]).historyIndex - 1 - ((9 : ℕ) : ℤ)
      + maxHistoryRows ∧
    (0 ≤ readIndex (runSamples boot [sampleNo 1, sampleNo 2]) 9 ∧
      readIndex (runSamples boot [sampleNo 1, sampleNo 2]) 9 < 10) :=
  ⟨by decide, (ring_indices_in_bounds [sampleNo 1, sampleNo 2] 9 (by decide)).2.2.1,
    (ring_indices_in_bounds [sampleNo 1, sampleNo 2] 9 (by decide)).2.2.2.2.1⟩

/-! ## Reads before the ring is full -/

theorem jsonOf_empty :
    jsonOf HistoricalData.empty =
      { date := "", time := "", bulb1State := "", bulb2State := "",
        current := ⟨.fin 0, 4⟩, power := ⟨.fin 0, 2⟩ } := by
  simp [jsonOf, HistoricalData.empty, formatCurrent, formatPower, floor4, floor2, Flt.mulWith,
    Flt.divWith, Flt.floor, rne32, rne64, rne_zero]

/-! ## Exactly one expiry -/

theorem handleClient_keepsTimer (s : State) (p : Pass) (h : p.keepsTimer = true) :
    (handleClient s p.req p.t).1.isScheduled = s.isScheduled ∧
    (handleClient s p.req p.t).1.scheduledTime = s.scheduledTime ∧
    (handleClient s p.req p.t).1.relayOnTime = s.relayOnTime := by
  obtain ⟨req, t, r⟩ := p
  rcases req with _ | req
  · simp [handleClient]
  · cases req with
    | schedule v => simp [Pass.keepsTimer] at h
    | turnOffAll => simp [Pass.keepsTimer] at h
    | timeInit d tm =>
      cases d <;> cases tm <;> simp [handleClient, handleTimeInit]
      split_ifs <;> simp
    | _ =>
      simp [handleClient, handleRoot, handleTurnOnAll, handleToggleBulb1, handleToggleBulb2,
        handleHistoricalData, setLEDs]

theorem handleClient_noSchedule (s : State) (p : Pass) (h : p.noSchedule = true)
    (hs : s.isScheduled = false) : (handleClient s p.req p.t).1.isScheduled = false := by
  obtain ⟨req, t, r⟩ := p
  rcases req with _ | req
  · simp [handleClient, hs]
  · cases req with
    | schedule v => simp [Pass.noSchedule] at h
    | timeInit d tm =>
      cases d <;> cases tm <;> simp [handleClient, handleTimeInit, hs]
      split_ifs <;> simp [hs]
    | _ =>
      simp [handleClient, handleRoot, handleTurnOnAll, handleTurnOffAll, handleToggleBulb1,
        handleToggleBulb2, handleHistoricalData, setLEDs, hs]

/-- What a pass of `loop` does to the schedule, in terms of the state `s1` its
request handler leaves: the timer is armed afterwards exactly when it was armed
in `s1` and the expiry test failed; duration and arm timestamp are those of `s1`;
and when the test held, both outlets and relays are off afterwards. -/
theorem loop_schedule (s : State) (p : Pass) :
    (loop s p.req p.t p.reading).1.isScheduled
      = ((handleClient s p.req p.t).1.isScheduled && !firesExpiry s p) ∧
    (loop s p.req p.t p.reading).1.scheduledTime = (handleClient s p.req p.t).1.scheduledTime ∧
    (loop s p.req p.t p.reading).1.relayOnTime = (handleClient s p.req p.t).1.relayOnTime ∧
    (firesExpiry s p = true →
      (loop s p.req p.t p.reading).1.bulb1State = false ∧
      (loop s p.req p.t p.reading).1.bulb2State = false ∧
      (loop s p.req p.t p.reading).1.relay1 = false ∧
      (loop s p.req p.t p.reading).1.relay2 = false ∧
      ∃ r ∈ (loop s p.req p.t p.reading).2,
        r = ⟨200, "application/json", .text "\x7b\"status\":\"All bulbs turned off\"\x7d"⟩) := by
  unfold loop firesExpiry expiryDue
  generalize handleClient s p.req p.t = hc
  obtain ⟨s1, sent⟩ := hc
  dsimp only
  cases h1 : s1.isScheduled <;>
    cases h2 : decide (toU32 (s1.scheduledTime * 1000) ≤ subU32 (millis p.t) s1.relayOnTime) <;>
    simp only [Bool.and_self, Bool.and_true, Bool.and_false, Bool.false_and,
      Bool.true_and, Bool.not_true, Bool.not_false, Bool.false_eq_true, if_false, if_true] <;>
    split_ifs <;>
    simp [handleTurnOffAll, setLEDs, handleHistoricalData, updateHistoricalData_control, h1]

theorem timerArmed_before (s : State) (D : ℤ) (T : ℕ) (q : Pass) (hs : TimerArmed D T s)
    (hD : 0 < D) (hrep : 1000 * D < 2 ^ 31)
    (hq : q.keepsTimer = true ∧ T ≤ q.t ∧ ((q.t - T : ℕ) : ℤ) < 1000 * D) :
    firesExpiry s q = false ∧ TimerArmed D T (loop s q.req q.t q.reading).1 := by
  obtain ⟨k1, k2, k3⟩ := handleClient_keepsTimer s q hq.1
  obtain ⟨a1, a2, a3⟩ := hs
  have hr : q.t - T < 2 ^ 32 := by
    norm_num at hrep ⊢
    omega
  have hdue := expiryDue_iff (handleClient s q.req q.t).1 D T q.t (by omega) hrep hq.2.1 hr
    (by rw [k1, a1]) (by rw [k2, a2]) (by rw [k3, a3])
  have hf : firesExpiry s q = false := by
    unfold firesExpiry
    cases h : expiryDue (handleClient s q.req q.t).1 q.t
    · rfl
    · have := hdue.mp h
      omega
  obtain ⟨l1, l2, l3, -⟩ := loop_schedule s q
  refine ⟨hf, ?_, ?_, ?_⟩
  · rw [l1, hf, k1, a1]
    rfl
  · rw [l2, k2, a2]
  · rw [l3, k3, a3]

theorem timerArmed_expire (s : State) (D : ℤ) (T : ℕ) (p : Pass) (hs : TimerArmed D T s)
    (hD : 0 < D) (hrep : 1000 * D < 2 ^ 31)
    (hp : p.keepsTimer = true ∧ T ≤ p.t ∧ 1000 * D ≤ ((p.t - T : ℕ) : ℤ) ∧ p.t - T < 2 ^ 32) :
    firesExpiry s p = true ∧ (loop s p.req p.t p.reading).1.isScheduled = false := by
  obtain ⟨k1, k2, k3⟩ := handleClient_keepsTimer s p hp.1
  obtain ⟨a1, a2, a3⟩ := hs
  have hdue := expiryDue_iff (handleClient s p.req p.t).1 D T p.t (by omega) hrep hp.2.1
    hp.2.2.2 (by rw [k1, a1]) (by rw [k2, a2]) (by rw [k3, a3])
  have hf : firesExpiry s p = true := hdue.mpr hp.2.2.1
  refine ⟨hf, ?_⟩
  rw [(loop_schedule s p).1, hf]
  simp

theorem disarmed_pass (s : State) (q : Pass) (hs : s.isScheduled = false)
    (hq : q.noSchedule = true) :
    firesExpiry s q = false ∧ (loop s q.req q.t q.reading).1.isScheduled = false := by
  have h1 := handleClient_noSchedule s q hq hs
  have hf : firesExpiry s q = false := by
    unfold firesExpiry expiryDue
    rw [h1]
    rfl
  refine ⟨hf, ?_⟩
  rw [(loop_schedule s q).1, h1]
  rfl

theorem runLoop_append (s : State) (a b : List Pass) :
    runLoop s (a ++ b) = runLoop (runLoop s a) b := by
  simp [runLoop, List.foldl_append]

theorem expiryCount_append (a b : List Pass) (s : State) :
    expiryCount s (a ++ b) = expiryCount s a + expiryCount (runLoop s a) b := by
  induction a generalizing s with
  | nil => simp [expiryCount, runLoop]
  | cons p ps ih =>
    rw [List.cons_append, expiryCount, expiryCount, ih (loop s p.req p.t p.reading).1]
    simp only [runLoop, List.foldl_cons]
    omega

theorem timerArmed_run (D : ℤ) (T : ℕ) (hD : 0 < D) (hrep : 1000 * D < 2 ^ 31)
    (before : List Pass) (s : State) (hs : TimerArmed D T s)
    (hb : ∀ q ∈ before, q.keepsTimer = true ∧ T ≤ q.t ∧ ((q.t - T : ℕ) : ℤ) < 1000 * D) :
    TimerArmed D T (runLoop s before) ∧ expiryCount s before = 0 := by
  induction before generalizing s with
  | nil => exact ⟨by simpa [runLoop] using hs, rfl⟩
  | cons q qs ih =>
    obtain ⟨hf, hn⟩ := timerArmed_before s D T q hs hD hrep (hb q (List.mem_cons_self _ _))
    obtain ⟨i1, i2⟩ := ih _ hn (fun x hx => hb x (List.mem_cons_of_mem _ hx))
    refine ⟨by simpa [runLoop] using i1, ?_⟩
    simp [expiryCount, hf, i2]

theorem disarmed_run (after : List Pass) (s : State) (hs : s.isScheduled = false)
    (ha : ∀ q ∈ after, q.noSchedule = true) :
    (runLoop s after).isScheduled = false ∧ expiryCount s after = 0 := by
  induction after generalizing s with
  | nil => exact ⟨by simpa [runLoop] using hs, rfl⟩
  | cons q qs ih =>
    obtain ⟨hf, hn⟩ := disarmed_pass s q hs (ha q (List.mem_cons_self _ _))
    obtain ⟨i1, i2⟩ := ih _ hn (fun x hx => ha x (List.mem_cons_of_mem _ hx))
    refine ⟨by simpa [runLoop] using i1, ?_⟩
    simp [expiryCount, hf, i2]
/-! ## Rows by content -/

/-- A natural number below `2 ^ p` is representable: rounding leaves it as it is. -/
theorem rne_natCast (p : ℕ) (emin emax : ℤ) (m : ℕ) (hm0 : 0 < m) (hm : m < 2 ^ p)
    (hemin : emin ≤ 0) (hemax : (p : ℤ) ≤ emax + 1) :
    rne p emin emax (m : ℚ) = .fin (m : ℚ) := by
  have h2 : (2 : ℚ) ≠ 0 := by norm_num
  have hq : (0 : ℚ) < (m : ℚ) := by exact_mod_cast hm0
  have h1 : (2 : ℚ) ^ Int.log 2 (m : ℚ) ≤ m := by
    have := Int.zpow_log_le_self (R := ℚ) (b := 2) (r := (m : ℚ)) (by norm_num) hq
    exact_mod_cast this
  have h1' : (m : ℚ) < (2 : ℚ) ^ (Int.log 2 (m : ℚ) + 1) := by
    have := Int.lt_zpow_succ_log_self (R := ℚ) (b := 2) (by norm_num) (m : ℚ)
    exact_mod_cast this
  have he0 : 0 ≤ Int.log 2 (m : ℚ) := by
    apply (Int.zpow_le_iff_le_log (R := ℚ) (b := 2) (by norm_num) hq).mp
    have : (1 : ℚ) ≤ m := by exact_mod_cast hm0
    simpa using this
  have hep : Int.log 2 (m : ℚ) < p := by
    apply (Int.lt_zpow_iff_log_lt (R := ℚ) (b := 2) (by norm_num) hq).mp
    have : (m : ℚ) < 2 ^ p := by exact_mod_cast hm
    simpa using this
  generalize Int.log 2 (m : ℚ) = e at h1 h1' he0 hep
  obtain ⟨j, hj⟩ : ∃ j : ℕ, (j : ℤ) = (p : ℤ) - 1 - e := ⟨((p : ℤ) - 1 - e).toNat, by omega⟩
  have hulp : (2 : ℚ) ^ (e - ((p : ℤ) - 1)) = ((2 : ℚ) ^ j)⁻¹ := by
    rw [show e - ((p : ℤ) - 1) = -(j : ℤ) by omega, zpow_neg, zpow_natCast]
  have hpj : (0 : ℚ) < 2 ^ j := by positivity
  have hval : (((m * 2 ^ j : ℕ) : ℤ) : ℚ) * (2 : ℚ) ^ (e - ((p : ℤ) - 1)) = m := by
    rw [hulp]
    push_cast
    field_simp
  rw [rne_eval p emin emax (m : ℚ) e ((m * 2 ^ j : ℕ) : ℤ) hq h1 h1' (by omega) ?_ ?_
    (by positivity), hval]
  · rw [hulp]
    have : (((m * 2 ^ j : ℕ) : ℤ) : ℚ) - (m : ℚ) / ((2 : ℚ) ^ j)⁻¹ = 0 := by
      push_cast
      field_simp
    rw [this]
    norm_num
  · rw [hval]
    have h3 : (m : ℚ) < (2 : ℚ) ^ (p : ℤ) := by
      rw [zpow_natCast]
      exact_mod_cast hm
    exact lt_of_lt_of_le h3 (zpow_le_zpow_right₀ (by norm_num) hemax)

/-- The row `updateHistoricalData` writes, field by field: the date, the time,
"On" or "Off" for each outlet, and the truncations of the clamped sensor value
and of `220` times it. -/
theorem rowOf_eq (i : SampleInput) :
    rowOf i =
      { date := i.date, time := i.time,
        bulb1State := if i.bulb1 then "On" else "Off",
        bulb2State := if i.bulb2 then "On" else "Off",
        roundedCurrent :=
          Flt.toFloat (floor4 (if Flt.lt i.reading lit_0_09 then .fin 0 else i.reading)),
        roundedPower :=
          Flt.toFloat (floor2 (Flt.mulWith rne32 voltageSupply
            (if Flt.lt i.reading lit_0_09 then .fin 0 else i.reading))) } := by
  unfold rowOf sampleWith updateHistoricalData State.historyAt
  dsimp only
  split <;> simp [boot, *]

/-- The truncation of a whole number `n` of units (`0 < n`, `n * S < 2 ^ 24`) at
scale `S`: both the `double` that is printed and the `float` that is stored are
`n` itself. -/
theorem truncate_natCast (n S : ℕ) (hn : 0 < n) (hS : 0 < S) (hnS : n * S < 2 ^ 24) :
    Flt.divWith rne64 (Flt.floor (Flt.mulWith rne32 (.fin n) (.fin S))) (.fin S) = .fin n ∧
    Flt.toFloat (Flt.divWith rne64 (Flt.floor (Flt.mulWith rne32 (.fin n) (.fin S))) (.fin S))
      = .fin n := by
  have hn24 : n < 2 ^ 24 := lt_of_le_of_lt (Nat.le_mul_of_pos_right n hS) hnS
  have a : rne32 ((n : ℚ) * (S : ℚ)) = .fin ((n * S : ℕ) : ℚ) := by
    have := rne_natCast 24 (-126) 127 (n * S) (Nat.mul_pos hn hS) hnS (by norm_num)
      (by norm_num)
    rw [rne32]
    push_cast at this ⊢
    exact this
  have hSq : (S : ℚ) ≠ 0 := by exact_mod_cast hS.ne'
  have b : rne64 ((((n * S : ℕ) : ℤ) : ℚ) / (S : ℚ)) = .fin (n : ℚ) := by
    have h0 : (((n * S : ℕ) : ℤ) : ℚ) / (S : ℚ) = (n : ℚ) := by
      push_cast
      field_simp
    rw [h0, rne64]
    exact rne_natCast 53 (-1022) 1023 n hn
      (lt_trans hn24 (by norm_num)) (by norm_num) (by norm_num)
  have c : rne32 (n : ℚ) = .fin (n : ℚ) :=
    rne_natCast 24 (-126) 127 n hn hn24 (by norm_num) (by norm_num)
  exact truncate_at (n : ℚ) (S : ℚ) ((n * S : ℕ) : ℚ) (n : ℚ) (n : ℚ) ((n * S : ℕ) : ℤ) hSq a
    (by
      have : (((n * S : ℕ) : ℚ)) = (((n * S : ℕ) : ℤ) : ℚ) := by push_cast; ring
      rw [this, Int.floor_intCast]) b c

/-- The row of test sample `k`, `1 ≤ k ≤ 700`: current `k`, power `220 * k`. -/
theorem rowOf_sampleNo (k : ℕ) (hk : 0 < k) (hk2 : k ≤ 700) :
    rowOf (sampleNo k) =
      { date := "2024-11-" ++ toString k, time := "00:00:00", bulb1State := "On",
        bulb2State := "On", roundedCurrent := .fin (k : ℚ),
        roundedPower := .fin ((220 * k : ℕ) : ℚ) } ∧
    jsonOf (rowOf (sampleNo k)) =
      { date := "2024-11-" ++ toString k, time := "00:00:00", bulb1State := "On",
        bulb2State := "On", current := ⟨.fin (k : ℚ), 4⟩,
        power := ⟨.fin ((220 * k : ℕ) : ℚ), 2⟩ } := by
  have hno : Flt.lt (Flt.fin (k : ℚ)) lit_0_09 = false := by
    apply not_lt_lit_of_le
    simp only [Flt.le, decide_eq_true_eq]
    have : (1 : ℚ) ≤ k := by exact_mod_cast hk
    linarith
  have hc := truncate_natCast k 10000 hk (by norm_num) (by norm_num; omega)
  have hp := truncate_natCast (220 * k) 100 (by omega) (by norm_num) (by norm_num; omega)
  have hmul : rne32 (220 * (k : ℚ)) = .fin ((220 * k : ℕ) : ℚ) := by
    have := rne_natCast 24 (-126) 127 (220 * k) (by omega) (by norm_num; omega) (by norm_num)
      (by norm_num)
    rw [rne32]
    push_cast at this ⊢
    exact this
  have hrow : rowOf (sampleNo k) =
      { date := "2024-11-" ++ toString k, time := "00:00:00", bulb1State := "On",
        bulb2State := "On", roundedCurrent := .fin (k : ℚ),
        roundedPower := .fin ((220 * k : ℕ) : ℚ) } := by
    rw [rowOf_eq]
    simp only [sampleNo, hno, if_true, Bool.false_eq_true, if_false, floor4, floor2,
      voltageSupply, Flt.mulWith, hmul]
    have hc2 := hc.2
    have hp2 := hp.2
    simp only [Nat.cast_ofNat, Flt.mulWith] at hc2 hp2
    rw [hc2, hp2]
  refine ⟨hrow, ?_⟩
  rw [hrow]
  have hc1 := hc.1
  have hp1 := hp.1
  simp only [Nat.cast_ofNat] at hc1 hp1
  simp only [jsonOf, formatCurrent, formatPower, floor4, floor2, hc1, hp1]

theorem jsonOf_rowOf (c : SampleInput) :
    jsonOf (rowOf c) =
      { date := c.date, time := c.time,
        bulb1State := if c.bulb1 then "On" else "Off",
        bulb2State := if c.bulb2 then "On" else "Off",
        current := ⟨floor4 (Flt.toFloat (floor4
          (if Flt.lt c.reading lit_0_09 then .fin 0 else c.reading))), 4⟩,
        power := ⟨floor2 (Flt.toFloat (floor2 (Flt.mulWith rne32 voltageSupply
          (if Flt.lt c.reading lit_0_09 then .fin 0 else c.reading)))), 2⟩ } := by
  rw [rowOf_eq]
  rfl

theorem readRows_full (s0 : State) (hlen : s0.history.length = 10)
    (hidx : s0.historyIndex = 0) (cs : List SampleInput) (hn : 10 ≤ cs.length) :
    (∀ i, i < 10 →
      (readRows (runSamples s0 cs))[i]? = cs[cs.length - 1 - i]?.map rowOf) ∧
    readRows (runSamples s0 cs) = (cs.reverse.take 10).map rowOf := by
  obtain ⟨-, -, h3, -⟩ := runSamples_ring s0 hlen hidx cs
  have key : ∀ i, i < 10 →
      (readRows (runSamples s0 cs))[i]? = cs[cs.length - 1 - i]?.map rowOf := by
    intro i hi
    rw [readRows_getElem? _ i hi, State.historyAt, readIndex_runSamples s0 hlen hidx cs i hi,
      List.getD_eq_getElem?_getD]
    have hmod : (cs.length + 9 - i) % 10 = (cs.length - 1 - i) % 10 := by omega
    rw [hmod, h3 (cs.length - 1 - i) (by omega) (by omega)]
    have hlt : cs.length - 1 - i < cs.length := by omega
    simp [List.getElem?_eq_getElem hlt]
  refine ⟨key, ?_⟩
  apply List.ext_getElem?
  intro i
  by_cases hi : i < 10
  · rw [key i hi, List.getElem?_map, List.getElem?_take_of_lt hi,
      List.getElem?_reverse (by omega)]
  · have hl1 : (readRows (runSamples s0 cs)).length ≤ i := by
      rw [readRows_length]
      omega
    have hl2 : ((cs.reverse.take 10).map rowOf).length ≤ i := by
      simp
      omega
    rw [List.getElem?_eq_none hl1, List.getElem?_eq_none hl2]

/-- C5: from a log of ten slots with cursor `0`, after `n ≥ 10` samples
`handleHistoricalData` reads exactly ten rows, and they are the rows of the
last ten samples, the newest first: row `i` is the row of sample `n - i`
(counting samples from `1`). Each row read carries the date, the time and the
outlet states ("On"/"Off") its sample saw and the truncated current and power
of its sample's sensor value, and the response carries one JSON object with
these values for each row, in that order. -/
theorem ring_newest_first (s0 : State) (hlen : s0.history.length = 10)
    (hidx : s0.historyIndex = 0) (cs : List SampleInput) (hn : 10 ≤ cs.length) :
    (readRows (runSamples s0 cs)).length = 10 ∧
    readRows (runSamples s0 cs) = (cs.reverse.take 10).map rowOf ∧
    (∀ i, i < 10 →
      (readRows (runSamples s0 cs))[i]? = cs[cs.length - 1 - i]?.map rowOf) ∧
    (handleHistoricalData (runSamples s0 cs)).2 =
      [⟨200, "application/json", .data (((cs.reverse.take 10).map rowOf).map jsonOf)⟩] ∧
    readRows (runSamples s0 cs) =
      (cs.reverse.take 10).map (fun c =>
        ({ date := c.date, time := c.time,
           bulb1State := if c.bulb1 then "On" else "Off",
           bulb2State := if c.bulb2 then "On" else "Off",
           roundedCurrent :=
            Flt.toFloat (floor4 (if Flt.lt c.reading lit_0_09 then .fin 0 else c.reading)),
           roundedPower :=
            Flt.toFloat (floor2 (Flt.mulWith rne32 voltageSupply
              (if Flt.lt c.reading lit_0_09 then .fin 0 else c.reading))) } :
          HistoricalData)) ∧
    (handleHistoricalData (runSamples s0 cs)).2 =
      [⟨200, "application/json", .data ((cs.reverse.take 10).map (fun c =>
        ({ date := c.date, time := c.time,
           bulb1State := if c.bulb1 then "On" else "Off",
           bulb2State := if c.bulb2 then "On" else "Off",
           current := ⟨floor4 (Flt.toFloat (floor4
            (if Flt.lt c.reading lit_0_09 then .fin 0 else c.reading))), 4⟩,
           power := ⟨floor2 (Flt.toFloat (floor2 (Flt.mulWith rne32 voltageSupply
            (if Flt.lt c.reading lit_0_09 then .fin 0 else c.reading)))), 2⟩ } :
          JsonEntry)))⟩] := by
  obtain ⟨key, hrows⟩ := readRows_full s0 hlen hidx cs hn
  have hresp : (handleHistoricalData (runSamples s0 cs)).2 =
      [⟨200, "application/json", .data (((cs.reverse.take 10).map rowOf).map jsonOf)⟩] := by
    simp [handleHistoricalData, historicalRows, hrows]
  refine ⟨readRows_length _, hrows, key, hresp, ?_, ?_⟩
  · rw [hrows]
    exact congrArg (fun f => List.map f (cs.reverse.take 10)) (funext rowOf_eq)
  · rw [hresp, List.map_map]
    exact congrArg (fun f => [Response.mk 200 "application/json"
      (Body.data (List.map f (cs.reverse.take 10)))]) (funext jsonOf_rowOf)

theorem ring_newest_first_witness :
    (boot.history.length = 10 ∧ boot.historyIndex = 0 ∧
      10 ≤ ((List.range' 1 15).map sampleNo).length) ∧
    readRows (runSamples boot ((List.range' 1 15).map sampleNo)) =
      [⟨"2024-11-15", "00:00:00", "On", "On", .fin 15, .fin 3300⟩,
       ⟨"2024-11-14", "00:00:00", "On", "On", .fin 14, .fin 3080⟩,
       ⟨"2024-11-13", "00:00:00", "On", "On", .fin 13, .fin 2860⟩,
       ⟨"2024-11-12", "00:00:00", "On", "On", .fin 12, .fin 2640⟩,
       ⟨"2024-11-11", "00:00:00", "On", "On", .fin 11, .fin 2420⟩,
       ⟨"2024-11-10", "00:00:00", "On", "On", .fin 10, .fin 2200⟩,
       ⟨"2024-11-9", "00:00:00", "On", "On", .fin 9, .fin 1980⟩,
       ⟨"2024-11-8", "00:00:00", "On", "On", .fin 8, .fin 1760⟩,
       ⟨"2024-11-7", "00:00:00", "On", "On", .fin 7, .fin 1540⟩,
       ⟨"2024-11-6", "00:00:00", "On", "On", .fin 6, .fin 1320⟩] ∧
    (handleHistoricalData (runSamples boot ((List.range' 1 15).map sampleNo))).2 =
      [⟨200, "application/json", .data
        [⟨"2024-11-15", "00:00:00", "On", "On", ⟨.fin 15, 4⟩, ⟨.fin 3300, 2⟩⟩,
         ⟨"2024-11-14", "00:00:00", "On", "On", ⟨.fin 14, 4⟩, ⟨.fin 3080, 2⟩⟩,
         ⟨"2024-11-13", "00:00:00", "On", "On", ⟨.fin 13, 4⟩, ⟨.fin 2860, 2⟩⟩,
         ⟨"2024-11-12", "00:00:00", "On", "On", ⟨.fin 12, 4⟩, ⟨.fin 2640, 2⟩⟩,
         ⟨"2024-11-11", "00:00:00", "On", "On", ⟨.fin 11, 4⟩, ⟨.fin 2420, 2⟩⟩,
         ⟨"2024-11-10", "00:00:00", "On", "On", ⟨.fin 10, 4⟩, ⟨.fin 2200, 2⟩⟩,
         ⟨"2024-11-9", "00:00:00", "On", "On", ⟨.fin 9, 4⟩, ⟨.fin 1980, 2⟩⟩,
         ⟨"2024-11-8", "00:00:00", "On", "On", ⟨.fin 8, 4⟩, ⟨.fin 1760, 2⟩⟩,
         ⟨"2024-11-7", "00:00:00", "On", "On", ⟨.fin 7, 4⟩, ⟨.fin 1540, 2⟩⟩,
         ⟨"2024-11-6", "00:00:00", "On", "On", ⟨.fin 6, 4⟩, ⟨.fin 1320, 2⟩⟩]⟩] := by
  have h := ring_newest_first boot rfl rfl ((List.range' 1 15).map sampleNo) (by decide)
  have hl : (((List.range' 1 15).map sampleNo).reverse.take 10).map rowOf =
      [rowOf (sampleNo 15), rowOf (sampleNo 14), rowOf (sampleNo 13), rowOf (sampleNo 12),
       rowOf (sampleNo 11), rowOf (sampleNo 10), rowOf (sampleNo 9), rowOf (sampleNo 8),
       rowOf (sampleNo 7), rowOf (sampleNo 6)] := rfl
  have d15 : "2024-11-" ++ toString 15 = "2024-11-15" := by decide
  have d14 : "2024-11-" ++ toString 14 = "2024-11-14" := by decide
  have d13 : "2024-11-" ++ toString 13 = "2024-11-13" := by decide
  have d12 : "2024-11-" ++ toString 12 = "2024-11-12" := by decide
  have d11 : "2024-11-" ++ toString 11 = "2024-11-11" := by decide
  have d10 : "2024-11-" ++ toString 10 = "2024-11-10" := by decide
  have d9 : "2024-11-" ++ toString 9 = "2024-11-9" := by decide
  have d8 : "2024-11-" ++ toString 8 = "2024-11-8" := by decide
  have d7 : "2024-11-" ++ toString 7 = "2024-11-7" := by decide
  have d6 : "2024-11-" ++ toString 6 = "2024-11-6" := by decide
  refine ⟨⟨rfl, rfl, by decide⟩, ?_, ?_⟩
  · rw [h.2.1, hl, (rowOf_sampleNo 15 (by decide) (by decide)).1,
      (rowOf_sampleNo 14 (by decide) (by decide)).1,
      (rowOf_sampleNo 13 (by decide) (by decide)).1,
      (rowOf_sampleNo 12 (by decide) (by decide)).1,
      (rowOf_sampleNo 11 (by decide) (by decide)).1,
      (rowOf_sampleNo 10 (by decide) (by decide)).1,
      (rowOf_sampleNo 9 (by decide) (by decide)).1,
      (rowOf_sampleNo 8 (by decide) (by decide)).1,
      (rowOf_sampleNo 7 (by decide) (by decide)).1,
      (rowOf_sampleNo 6 (by decide) (by decide)).1,
      d15, d14, d13, d12, d11, d10, d9, d8, d7, d6]
    norm_num
  · rw [h.2.2.2.1, hl]
    simp only [List.map_cons, List.map_nil]
    rw [(rowOf_sampleNo 15 (by decide) (by decide)).2,
      (rowOf_sampleNo 14 (by decide) (by decide)).2,
      (rowOf_sampleNo 13 (by decide) (by decide)).2,
      (rowOf_sampleNo 12 (by decide) (by decide)).2,
      (rowOf_sampleNo 11 (by decide) (by decide)).2,
      (rowOf_sampleNo 10 (by decide) (by decide)).2,
      (rowOf_sampleNo 9 (by decide) (by decide)).2,
      (rowOf_sampleNo 8 (by decide) (by decide)).2,
      (rowOf_sampleNo 7 (by decide) (by decide)).2,
      (rowOf_sampleNo 6 (by decide) (by decide)).2,
      d15, d14, d13, d12, d11, d10, d9, d8, d7, d6]
    norm_num

theorem readRows_prefill (s0 : State)
    (hhist : s0.history = List.replicate 10 HistoricalData.empty)
    (hidx : s0.historyIndex = 0) (cs : List SampleInput) (hk : cs.length < 10) :
    readRows (runSamples s0 cs)
      = cs.reverse.map rowOf ++ List.replicate (10 - cs.length) HistoricalData.empty := by
  have hlen : s0.history.length = 10 := by simp [hhist]
  obtain ⟨-, -, h3, h4⟩ := runSamples_ring s0 hlen hidx cs
  apply List.ext_getElem?
  intro i
  by_cases hi : i < 10
  · rw [readRows_getElem? _ i hi, State.historyAt, readIndex_runSamples s0 hlen hidx cs i hi,
      List.getD_eq_getElem?_getD]
    by_cases hik : i < cs.length
    · have hmod : (cs.length + 9 - i) % 10 = (cs.length - 1 - i) % 10 := by omega
      have hlt : cs.length - 1 - i < cs.length := by omega
      rw [hmod, h3 (cs.length - 1 - i) hlt (by omega),
        List.getElem?_append_left (by simpa using hik), List.getElem?_map,
        List.getElem?_reverse hik]
      simp [List.getElem?_eq_getElem hlt]
    · have hmod : (cs.length + 9 - i) % 10 = cs.length + 9 - i := by omega
      rw [hmod, h4 (cs.length + 9 - i) (by omega), hhist,
        List.getElem?_append_right (by simp; omega)]
      simp only [List.getElem?_replicate, List.length_map, List.length_reverse]
      rw [if_pos (by omega), if_pos (by omega)]
      rfl
  · have hl1 : (readRows (runSamples s0 cs)).length ≤ i := by
      rw [readRows_length]
      omega
    have hl2 : (cs.reverse.map rowOf
        ++ List.replicate (10 - cs.length) HistoricalData.empty).length ≤ i := by
      simp
      omega
    rw [List.getElem?_eq_none hl1, List.getElem?_eq_none hl2]

/-- C13: from a log of ten never-written slots with cursor `0`, after `k < 10`
samples `handleHistoricalData` still reads exactly ten rows: first the rows of
the `k` samples, the newest first, each with the date, the time and the outlet
states ("On"/"Off") its sample saw and the truncated current and power of its
sensor value, then `10 - k` never-written rows (empty date, time and outlet
strings, current and power zero). The response carries one JSON object for
each, the default rows being served as empty strings with current `0` to four
places and power `0` to two. -/
theorem prefill_reads (s0 : State)
    (hhist : s0.history = List.replicate 10 HistoricalData.empty)
    (hidx : s0.historyIndex = 0) (cs : List SampleInput) (hk : cs.length < 10) :
    (readRows (runSamples s0 cs)).length = 10 ∧
    readRows (runSamples s0 cs)
      = cs.reverse.map rowOf ++ List.replicate (10 - cs.length) HistoricalData.empty ∧
    (handleHistoricalData (runSamples s0 cs)).2 =
      [⟨200, "application/json",
        .data ((cs.reverse.map rowOf).map jsonOf ++ List.replicate (10 - cs.length)
          { date := "", time := "", bulb1State := "", bulb2State := "",
            current := ⟨.fin 0, 4⟩, power := ⟨.fin 0, 2⟩ })⟩] ∧
    readRows (runSamples s0 cs) =
      cs.reverse.map (fun c =>
        ({ date := c.date, time := c.time,
           bulb1State := if c.bulb1 then "On" else "Off",
           bulb2State := if c.bulb2 then "On" else "Off",
           roundedCurrent :=
            Flt.toFloat (floor4 (if Flt.lt c.reading lit_0_09 then .fin 0 else c.reading)),
           roundedPower :=
            Flt.toFloat (floor2 (Flt.mulWith rne32 voltageSupply
              (if Flt.lt c.reading lit_0_09 then .fin 0 else c.reading))) } :
          HistoricalData))
      ++ List.replicate (10 - cs.length)
          ({ date := "", time := "", bulb1State := "", bulb2State := "",
             roundedCurrent := .fin 0, roundedPower := .fin 0 } : HistoricalData) ∧
    (handleHistoricalData (runSamples s0 cs)).2 =
      [⟨200, "application/json", .data (cs.reverse.map (fun c =>
        ({ date := c.date, time := c.time,
           bulb1State := if c.bulb1 then "On" else "Off",
           bulb2State := if c.bulb2 then "On" else "Off",
           current := ⟨floor4 (Flt.toFloat (floor4
            (if Flt.lt c.reading lit_0_09 then .fin 0 else c.reading))), 4⟩,
           power := ⟨floor2 (Flt.toFloat (floor2 (Flt.mulWith rne32 voltageSupply
            (if Flt.lt c.reading lit_0_09 then .fin 0 else c.reading)))), 2⟩ } :
          JsonEntry))
        ++ List.replicate (10 - cs.length)
          { date := "", time := "", bulb1State := "", bulb2State := "",
            current := ⟨.fin 0, 4⟩, power := ⟨.fin 0, 2⟩ })⟩] := by
  have hrows := readRows_prefill s0 hhist hidx cs hk
  have hresp : (handleHistoricalData (runSamples s0 cs)).2 =
      [⟨200, "application/json",
        .data ((cs.reverse.map rowOf).map jsonOf ++ List.replicate (10 - cs.length)
          { date := "", time := "", bulb1State := "", bulb2State := "",
            current := ⟨.fin 0, 4⟩, power := ⟨.fin 0, 2⟩ })⟩] := by
    simp [handleHistoricalData, historicalRows, hrows, jsonOf_empty]
  refine ⟨readRows_length _, hrows, hresp, ?_, ?_⟩
  · rw [hrows]
    exact congrArg (fun f => List.map f cs.reverse ++ List.replicate (10 - cs.length)
      HistoricalData.empty) (funext rowOf_eq)
  · rw [hresp, List.map_map]
    exact congrArg (fun f => [Response.mk 200 "application/json"
      (Body.data (List.map f cs.reverse ++ List.replicate (10 - cs.length)
        { date := "", time := "", bulb1State := "", bulb2State := "",
          current := ⟨.fin 0, 4⟩, power := ⟨.fin 0, 2⟩ }))]) (funext jsonOf_rowOf)

theorem prefill_reads_witness :
    (boot.history = List.replicate 10 HistoricalData.empty ∧ boot.historyIndex = 0 ∧
      [sampleNo 1, sampleNo 2, sampleNo 3].length < 10) ∧
    readRows (runSamples boot [sampleNo 1, sampleNo 2, sampleNo 3]) =
      [⟨"2024-11-3", "00:00:00", "On", "On", .fin 3, .fin 660⟩,
       ⟨"2024-11-2", "00:00:00", "On", "On", .fin 2, .fin 440⟩,
       ⟨"2024-11-1", "00:00:00", "On", "On", .fin 1, .fin 220⟩,
       ⟨"", "", "", "", .fin 0, .fin 0⟩, ⟨"", "", "", "", .fin 0, .fin 0⟩,
       ⟨"", "", "", "", .fin 0, .fin 0⟩, ⟨"", "", "", "", .fin 0, .fin 0⟩,
       ⟨"", "", "", "", .fin 0, .fin 0⟩, ⟨"", "", "", "", .fin 0, .fin 0⟩,
       ⟨"", "", "", "", .fin 0, .fin 0⟩] ∧
    (handleHistoricalData (runSamples boot [sampleNo 1, sampleNo 2, sampleNo 3])).2 =
      [⟨200, "application/json", .data
        [⟨"2024-11-3", "00:00:00", "On", "On", ⟨.fin 3, 4⟩, ⟨.fin 660, 2⟩⟩,
         ⟨"2024-11-2", "00:00:00", "On", "On", ⟨.fin 2, 4⟩, ⟨.fin 440, 2⟩⟩,
         ⟨"2024-11-1", "00:00:00", "On", "On", ⟨.fin 1, 4⟩, ⟨.fin 220, 2⟩⟩,
         ⟨"", "", "", "", ⟨.fin 0, 4⟩, ⟨.fin 0, 2⟩⟩, ⟨"", "", "", "", ⟨.fin 0, 4⟩, ⟨.fin 0, 2⟩⟩,
         ⟨"", "", "", "", ⟨.fin 0, 4⟩, ⟨.fin 0, 2⟩⟩, ⟨"", "", "", "", ⟨.fin 0, 4⟩, ⟨.fin 0, 2⟩⟩,
         ⟨"", "", "", "", ⟨.fin 0, 4⟩, ⟨.fin 0, 2⟩⟩, ⟨"", "", "", "", ⟨.fin 0, 4⟩, ⟨.fin 0, 2⟩⟩,
         ⟨"", "", "", "", ⟨.fin 0, 4⟩, ⟨.fin 0, 2⟩⟩]⟩] := by
  have h := prefill_reads boot rfl rfl [sampleNo 1, sampleNo 2, sampleNo 3] (by decide)
  have d3 : "2024-11-" ++ toString 3 = "2024-11-3" := by decide
  have d2 : "2024-11-" ++ toString 2 = "2024-11-2" := by decide
  have d1 : "2024-11-" ++ toString 1 = "2024-11-1" := by decide
  refine ⟨⟨rfl, rfl, by decide⟩, ?_, ?_⟩
  · rw [h.2.1]
    simp only [List.reverse_cons, List.reverse_nil, List.nil_append, List.cons_append,
      List.map_cons, List.map_nil, List.length_cons, List.length_nil]
    rw [(rowOf_sampleNo 3 (by decide) (by decide)).1,
      (rowOf_sampleNo 2 (by decide) (by decide)).1,
      (rowOf_sampleNo 1 (by decide) (by decide)).1, d3, d2, d1]
    norm_num [List.replicate, HistoricalData.empty]
  · rw [h.2.2.1]
    simp only [List.reverse_cons, List.reverse_nil, List.nil_append, List.cons_append,
      List.map_cons, List.map_nil, List.length_cons, List.length_nil]
    rw [(rowOf_sampleNo 3 (by decide) (by decide)).2,
      (rowOf_sampleNo 2 (by decide) (by decide)).2,
      (rowOf_sampleNo 1 (by decide) (by decide)).2, d3, d2, d1]
    norm_num [List.replicate]

/-! ## Quantisation, step by step -/

/-- The stored truncation `floor(x * S) / S`, with its steps named: `v` is the
binary32 product, `⌊v⌋` its integer part, and the stored `c` is the rounding
(to binary64, then to binary32) of `⌊v⌋ / S`. -/
theorem truncate_steps (x S : ℚ) (hS1 : 1 ≤ S) (hS2 : S ≤ 10000) (hx : 2 ≤ x * S)
    (hx2 : x ≤ 2 ^ 110) :
    ∃ v c : ℚ,
      rne32 (x * S) = .fin v ∧
      Flt.toFloat (Flt.divWith rne64 (Flt.floor (Flt.mulWith rne32 (.fin x) (.fin S))) (.fin S))
        = .fin c ∧
      Flt.toFloat (rne64 ((⌊v⌋ : ℚ) / S)) = .fin c ∧
      (x * S * (1 - 1 / 2 ^ 24) ≤ v ∧ v ≤ x * S * (1 + 1 / 2 ^ 24)) ∧
      ((⌊v⌋ : ℚ) / S * (1 - 1 / 2 ^ 53) * (1 - 1 / 2 ^ 24) ≤ c ∧
        c ≤ (⌊v⌋ : ℚ) / S * (1 + 1 / 2 ^ 53) * (1 + 1 / 2 ^ 24)) := by
  have hS0 : 0 < S := by linarith
  have hx0 : 0 < x := by
    by_contra h
    push_neg at h
    nlinarith
  have hxS : x * S ≤ 2 ^ 110 * 10000 := by
    calc x * S ≤ 2 ^ 110 * S := mul_le_mul_of_nonneg_right hx2 hS0.le
      _ ≤ 2 ^ 110 * 10000 := mul_le_mul_of_nonneg_left hS2 (by norm_num)
  obtain ⟨v, hv, hvlo, hvhi⟩ := rne_pos_bounds 24 (-126) 127 (x * S) (by linarith)
    (le_trans (by norm_num) hx) (lt_of_le_of_lt hxS (by norm_num))
  norm_num at hvlo hvhi
  have hv1 : 1 ≤ v := by linarith
  have hk1 : (1 : ℚ) ≤ (⌊v⌋ : ℚ) := by
    have : (1 : ℤ) ≤ ⌊v⌋ := Int.le_floor.mpr (by exact_mod_cast hv1)
    exact_mod_cast this
  have hkle : (⌊v⌋ : ℚ) ≤ v := Int.floor_le v
  have hq0 : 0 < (⌊v⌋ : ℚ) / S := div_pos (by linarith) hS0
  have hqlo : 1 / 10000 ≤ (⌊v⌋ : ℚ) / S := by
    rw [le_div_iff₀ hS0]
    linarith
  have hqhi : (⌊v⌋ : ℚ) / S ≤ x * (16777217 / 16777216) := by
    rw [div_le_iff₀ hS0]
    linarith
  have hqhi2 : (⌊v⌋ : ℚ) / S ≤ 2 ^ 111 := by
    have : x * (16777217 / 16777216) ≤ 2 ^ 110 * 2 := by
      calc x * (16777217 / 16777216) ≤ 2 ^ 110 * (16777217 / 16777216) :=
            mul_le_mul_of_nonneg_right hx2 (by norm_num)
        _ ≤ 2 ^ 110 * 2 := by norm_num
    linarith
  obtain ⟨y, hy, hylo, hyhi⟩ := rne_pos_bounds 53 (-1022) 1023 ((⌊v⌋ : ℚ) / S) hq0
    (le_trans (by norm_num) hqlo) (lt_of_le_of_lt hqhi2 (by norm_num))
  norm_num at hylo hyhi
  have hy0 : 1 / 20000 ≤ y := by linarith
  have hy2 : y ≤ 2 ^ 112 := by linarith
  obtain ⟨c, hc, hclo, hchi⟩ := rne_pos_bounds 24 (-126) 127 y (by linarith)
    (le_trans (by norm_num) hy0) (lt_of_le_of_lt hy2 (by norm_num))
  norm_num at hclo hchi
  refine ⟨v, c, hv, ?_, ?_, ⟨?_, ?_⟩, ⟨?_, ?_⟩⟩
  · simp only [Flt.mulWith, rne32, hv, Flt.floor, Flt.divWith, hS0.ne', if_false, rne64, hy,
      Flt.toFloat, hc]
  · simp only [rne64, hy, Flt.toFloat, rne32, hc]
  · norm_num
    linarith
  · norm_num
    linarith
  · calc (⌊v⌋ : ℚ) / S * (1 - 1 / 2 ^ 53) * (1 - 1 / 2 ^ 24)
        ≤ y * (1 - 1 / 2 ^ 24) := by
          apply mul_le_mul_of_nonneg_right _ (by norm_num)
          norm_num
          linarith
      _ ≤ c := by norm_num; linarith
  · calc c ≤ y * (1 + 1 / 2 ^ 24) := by norm_num; linarith
      _ ≤ (⌊v⌋ : ℚ) / S * (1 + 1 / 2 ^ 53) * (1 + 1 / 2 ^ 24) := by
          apply mul_le_mul_of_nonneg_right _ (by norm_num)
          norm_num
          linarith

theorem floatOfBits_0_123456 : floatOfBits 0x3DFCD680 = .fin (129453 / 1048576) := by
  norm_num [floatOfBits]

/-- The `float` nearest `0.123456` is stored as the `float` nearest `0.1234`,
with power the `float` nearest `27.16`. -/
theorem row_0_123456 (s : State) :
    (rowOf (inputOf s (floatOfBits 0x3DFCD680))).roundedCurrent
      = .fin (4140617 / 33554432) ∧
    (rowOf (inputOf s (floatOfBits 0x3DFCD680))).roundedPower
      = .fin (7119831 / 262144) := by
  have u : Flt.lt (Flt.fin (129453 / 1048576)) lit_0_09 = false :=
    not_lt_lit_of_le _ (by norm_num [Flt.le])
  have a : rne32 (129453 / 1048576 * 10000) = .fin (2528379 / 2048) := by
    rw [rne32_at _ 10 10113516 (by norm_num [abs_lt])]
    norm_num
  have b : rne64 (((1234 : ℤ) : ℚ) / 10000)
      = .fin (8891907104280307 / 72057594037927936) := by
    rw [rne64_at _ (-4) 8891907104280307 (by norm_num [abs_lt])]
    norm_num
  have c : rne32 (8891907104280307 / 72057594037927936) = .fin (4140617 / 33554432) := by
    rw [rne32_at _ (-4) 16562468 (by norm_num [abs_lt])]
    norm_num
  have d : rne32 (220 * (129453 / 1048576)) = .fin (7119915 / 262144) := by
    rw [rne32_at _ 4 14239830 (by norm_num [abs_lt])]
    norm_num
  have e : rne32 (7119915 / 262144 * 100) = .fin (11124867 / 4096) := by
    rw [rne32_at _ 11 11124867 (by norm_num [abs_lt])]
    norm_num
  have f : rne64 (((2716 : ℤ) : ℚ) / 100)
      = .fin (7644860367461417 / 281474976710656) := by
    rw [rne64_at _ 4 7644860367461417 (by norm_num [abs_lt])]
    norm_num
  have g : rne32 (7644860367461417 / 281474976710656) = .fin (7119831 / 262144) := by
    rw [rne32_at _ 4 14239662 (by norm_num [abs_lt])]
    norm_num
  have k1 : ⌊(2528379 / 2048 : ℚ)⌋ = 1234 := by
    rw [Int.floor_eq_iff]
    norm_num
  have k2 : ⌊(11124867 / 4096 : ℚ)⌋ = 2716 := by
    rw [Int.floor_eq_iff]
    norm_num
  have tc := truncate_at (129453 / 1048576) 10000 _ _ _ 1234 (by norm_num) a k1 b c
  have tp := truncate_at (7119915 / 262144) 100 _ _ _ 2716 (by norm_num) e k2 f g
  rw [floatOfBits_0_123456]
  obtain ⟨r1, r2⟩ := rowOf_unclamped (inputOf s (.fin (129453 / 1048576))) u
  refine ⟨?_, ?_⟩
  · rw [r1]
    exact tc.2
  · rw [r2]
    simp only [inputOf, voltageSupply, Flt.mulWith, d, floor2]
    exact tp.2

theorem current_r0 :
    Flt.toFloat (floor4 (.fin (6725185 / 2097152))) = .fin (6725147 / 2097152) := by
  have b : rne32 (6725185 / 2097152 * 10000) = .fin (16418909 / 512) := by
    rw [rne32_at _ 14 16418909 (by norm_num [abs_lt])]
    norm_num
  have k : ⌊(16418909 / 512 : ℚ)⌋ = 32068 := by
    rw [Int.floor_eq_iff]
    norm_num
  have c : rne64 (((32068 : ℤ) : ℚ) / 10000)
      = .fin (7221071642525853 / 2251799813685248) := by
    rw [rne64_at _ 1 7221071642525853 (by norm_num [abs_lt])]
    norm_num
  have d : rne32 (7221071642525853 / 2251799813685248) = .fin (6725147 / 2097152) := by
    rw [rne32_at _ 1 13450294 (by norm_num [abs_lt])]
    norm_num
  exact (truncate_at (6725185 / 2097152) 10000 _ _ _ 32068 (by norm_num) b k c d).2

/-- C9, counterexample: the binary32 value `r = 6725185 / 2097152` (about
`3.2068181`, bits `0x404D3C82`) is stored with current `6725147 / 2097152`
(about `3.2068`) and power `705.5`; the power is neither
`floor(220 * r * 100) / 100 = 705.49` nor at most `220 * r`. The binary32 value
`r = 13854205 / 4194304` (about `3.3030999`, bits `0x405365FD`) is stored with
current `6927103 / 2097152` (about `3.3031001`), which is neither
`floor(r * 10000) / 10000 = 3.3030` nor at most `r`. -/
theorem quantization_counterexample :
    (floatOfBits 0x404D3C82 = .fin (6725185 / 2097152) ∧
      (9 / 100 : ℚ) ≤ 6725185 / 2097152 ∧
      (rowOf (inputOf boot (floatOfBits 0x404D3C82))).roundedCurrent
        = .fin (6725147 / 2097152) ∧
      (rowOf (inputOf boot (floatOfBits 0x404D3C82))).roundedPower = .fin (1411 / 2) ∧
      (1411 / 2 : ℚ) ≠ (⌊(220 : ℚ) * (6725185 / 2097152) * 100⌋ : ℚ) / 100 ∧
      ¬ ((1411 / 2 : ℚ) ≤ 220 * (6725185 / 2097152))) ∧
    (floatOfBits 0x405365FD = .fin (13854205 / 4194304) ∧
      (9 / 100 : ℚ) ≤ 13854205 / 4194304 ∧
      (rowOf (inputOf boot (floatOfBits 0x405365FD))).roundedCurrent
        = .fin (6927103 / 2097152) ∧
      (6927103 / 2097152 : ℚ) ≠ (⌊(13854205 / 4194304 : ℚ) * 10000⌋ : ℚ) / 10000 ∧
      ¬ ((6927103 / 2097152 : ℚ) ≤ 13854205 / 4194304)) := by
  have u0 : Flt.lt (Flt.fin (6725185 / 2097152)) lit_0_09 = false :=
    not_lt_lit_of_le _ (by norm_num [Flt.le])
  have u1 : Flt.lt (Flt.fin (13854205 / 4194304)) lit_0_09 = false :=
    not_lt_lit_of_le _ (by norm_num [Flt.le])
  have f0 : ⌊(220 : ℚ) * (6725185 / 2097152) * 100⌋ = 70549 := by
    rw [Int.floor_eq_iff]
    norm_num
  have f1 : ⌊(13854205 / 4194304 : ℚ) * 10000⌋ = 33030 := by
    rw [Int.floor_eq_iff]
    norm_num
  refine ⟨⟨floatOfBits_r0, by norm_num, ?_, ?_, ?_, by norm_num⟩,
    ⟨floatOfBits_r1, by norm_num, ?_, ?_, by norm_num⟩⟩
  · rw [floatOfBits_r0, (rowOf_unclamped (inputOf boot (.fin (6725185 / 2097152))) u0).1]
    exact current_r0
  · rw [floatOfBits_r0, (rowOf_unclamped (inputOf boot (.fin (6725185 / 2097152))) u0).2]
    exact power_r0
  · rw [f0]
    norm_num
  · rw [floatOfBits_r1, (rowOf_unclamped (inputOf boot (.fin (13854205 / 4194304))) u1).1]
    exact current_r1
  · rw [f1]
    norm_num

/-- C9, amended: for every finite sensor value `r` with `0.09 ≤ r ≤ 2 ^ 100`
the row stores current `floor(r * 10000) / 10000.0` and power
`floor(220 * r * 100) / 100.0` as computed in floating point. With `v` the
binary32 product `r * 10000` and `k = ⌊v⌋`, the stored current `c` is `k / 10000`
rounded to binary64 and then to binary32; with `p1` the binary32 product
`220 * r`, `v2` the binary32 product `p1 * 100` and `m = ⌊v2⌋`, the stored power
`P` is `m / 100` rounded the same way. So `k` and `m` are the exact counts
`floor(r * 10000)` and `floor(220 * r * 100)` up to the rounding of the
products, `c` and `P` are `k / 10000` and `m / 100` up to a relative `2 ^ (-23)`,
and `c ≤ r * (1 + 2 ^ (-22))`, `r * (1 - 2 ^ (-22)) < c + 0.0001`,
`P ≤ 220 * r * (1 + 2 ^ (-21))`, `220 * r * (1 - 2 ^ (-21)) < P + 0.01`. The
`float` nearest `0.15` is stored as itself with power `33` and served as the
`double` nearest `0.15` to four places and `33` to two; the `float` nearest
`0.123456` is stored as the `float` nearest `0.1234` with power the `float`
nearest `27.16`. -/
theorem quantization_bounds (s : State) (r : ℚ) (hlo : 9 / 100 ≤ r) (hhi : r ≤ 2 ^ 100) :
    ((rowOf (inputOf s (.fin r))).roundedCurrent = Flt.toFloat (floor4 (.fin r)) ∧
     (rowOf (inputOf s (.fin r))).roundedPower
        = Flt.toFloat (floor2 (Flt.mulWith rne32 voltageSupply (.fin r)))) ∧
    (∃ c P : ℚ,
      (rowOf (inputOf s (.fin r))).roundedCurrent = .fin c ∧
      (rowOf (inputOf s (.fin r))).roundedPower = .fin P ∧
      c ≤ r * (1 + 1 / 2 ^ 22) ∧ r * (1 - 1 / 2 ^ 22) < c + 1 / 10000 ∧
      P ≤ 220 * r * (1 + 1 / 2 ^ 21) ∧ 220 * r * (1 - 1 / 2 ^ 21) < P + 1 / 100 ∧
      ∃ (k m : ℤ) (v p1 v2 : ℚ),
        (rne32 (r * 10000) = .fin v ∧ ⌊v⌋ = k ∧
          Flt.toFloat (rne64 ((k : ℚ) / 10000)) = .fin c) ∧
        (rne32 (220 * r) = .fin p1 ∧ rne32 (p1 * 100) = .fin v2 ∧ ⌊v2⌋ = m ∧
          Flt.toFloat (rne64 ((m : ℚ) / 100)) = .fin P) ∧
        (r * 10000 * (1 - 1 / 2 ^ 24) - 1 < k ∧ (k : ℚ) ≤ r * 10000 * (1 + 1 / 2 ^ 24)) ∧
        (220 * r * 100 * (1 - 1 / 2 ^ 23) - 1 < m ∧
          (m : ℚ) ≤ 220 * r * 100 * (1 + 1 / 2 ^ 22)) ∧
        ((k : ℚ) / 10000 * (1 - 1 / 2 ^ 23) ≤ c ∧ c ≤ (k : ℚ) / 10000 * (1 + 1 / 2 ^ 23)) ∧
        ((m : ℚ) / 100 * (1 - 1 / 2 ^ 23) ≤ P ∧ P ≤ (m : ℚ) / 100 * (1 + 1 / 2 ^ 23))) ∧
    ((rowOf (inputOf s (floatOfBits 0x3E19999A))).roundedCurrent
        = .fin (5033165 / 33554432) ∧
     (rowOf (inputOf s (floatOfBits 0x3E19999A))).roundedPower = .fin 33 ∧
     formatCurrent (.fin (5033165 / 33554432))
        = ⟨.fin (5404319552844595 / 36028797018963968), 4⟩ ∧
     formatPower (.fin 33) = ⟨.fin 33, 2⟩) ∧
    ((rowOf (inputOf s (floatOfBits 0x3DFCD680))).roundedCurrent
        = .fin (4140617 / 33554432) ∧
     (rowOf (inputOf s (floatOfBits 0x3DFCD680))).roundedPower
        = .fin (7119831 / 262144)) := by
  have u : Flt.lt (Flt.fin r) lit_0_09 = false :=
    not_lt_lit_of_le _ (by simpa [Flt.le] using hlo)
  obtain ⟨r1, r2⟩ := rowOf_unclamped (inputOf s (.fin r)) u
  refine ⟨⟨r1, r2⟩, ?_, row_0_15 s, row_0_123456 s⟩
  have hr0 : 0 < r := by linarith
  -- the current
  obtain ⟨v, c, hv, hc, hkc, ⟨hvlo, hvhi⟩, ⟨hclo, hchi⟩⟩ :=
    truncate_steps r 10000 (by norm_num) (by norm_num) (by linarith)
      (le_trans hhi (by norm_num))
  -- the power
  obtain ⟨p1, hp1, hp1lo, hp1hi⟩ := rne_pos_bounds 24 (-126) 127 (220 * r) (by linarith)
    (le_trans (by norm_num) (show (1 : ℚ) ≤ 220 * r by linarith))
    (lt_of_le_of_lt (show 220 * r ≤ 220 * 2 ^ 100 by linarith) (by norm_num))
  norm_num at hp1lo hp1hi
  obtain ⟨v2, P, hv2, hP, hmP, ⟨hv2lo, hv2hi⟩, ⟨hPlo, hPhi⟩⟩ :=
    truncate_steps p1 100 (by norm_num) (by norm_num) (by linarith) (by
      have : (220 : ℚ) * 2 ^ 100 * (16777217 / 16777216) ≤ 2 ^ 110 := by norm_num
      linarith)
  have hk1 : (⌊v⌋ : ℚ) ≤ v := Int.floor_le v
  have hk2 : v - 1 < (⌊v⌋ : ℚ) := by linarith [Int.lt_floor_add_one v]
  have hm1 : (⌊v2⌋ : ℚ) ≤ v2 := Int.floor_le v2
  have hm2 : v2 - 1 < (⌊v2⌋ : ℚ) := by linarith [Int.lt_floor_add_one v2]
  have hk0 : (0 : ℚ) ≤ (⌊v⌋ : ℚ) := by
    have : (0 : ℤ) ≤ ⌊v⌋ := Int.floor_nonneg.mpr (by norm_num at hvlo; linarith)
    exact_mod_cast this
  have hm0 : (0 : ℚ) ≤ (⌊v2⌋ : ℚ) := by
    have : (0 : ℤ) ≤ ⌊v2⌋ := Int.floor_nonneg.mpr (by norm_num at hv2lo; linarith)
    exact_mod_cast this
  norm_num at hvlo hvhi hclo hchi hv2lo hv2hi hPlo hPhi
  refine ⟨c, P, ?_, ?_, ?_, ?_, ?_, ?_, ⌊v⌋, ⌊v2⌋, v, p1, v2,
    ⟨hv, rfl, hkc⟩, ⟨hp1, hv2, rfl, hmP⟩, ⟨?_, ?_⟩, ⟨?_, ?_⟩, ⟨?_, ?_⟩, ⟨?_, ?_⟩⟩
  · rw [r1]
    simp only [floor4]
    exact hc
  · rw [r2]
    simp only [inputOf, voltageSupply, Flt.mulWith, floor2]
    rw [show rne32 (220 * r) = Flt.fin p1 from hp1]
    exact hP
  · norm_num
    linarith
  · norm_num
    linarith
  · norm_num
    linarith
  · norm_num
    linarith
  · norm_num
    linarith
  · norm_num
    linarith
  · norm_num
    linarith
  · norm_num
    linarith
  · norm_num
    linarith
  · norm_num
    linarith
  · norm_num
    linarith
  · norm_num
    linarith

theorem quantization_bounds_witness :
    ((9 / 100 : ℚ) ≤ 129453 / 1048576 ∧ (129453 / 1048576 : ℚ) ≤ 2 ^ 100) ∧
    (∃ c P : ℚ,
      (rowOf (inputOf boot (.fin (129453 / 1048576)))).roundedCurrent = .fin c ∧
      (rowOf (inputOf boot (.fin (129453 / 1048576)))).roundedPower = .fin P ∧
      c ≤ 129453 / 1048576 * (1 + 1 / 2 ^ 22) ∧
      129453 / 1048576 * (1 - 1 / 2 ^ 22) < c + 1 / 10000 ∧
      P ≤ 220 * (129453 / 1048576) * (1 + 1 / 2 ^ 21) ∧
      220 * (129453 / 1048576) * (1 - 1 / 2 ^ 21) < P + 1 / 100) ∧
    ((rowOf (inputOf boot (floatOfBits 0x3DFCD680))).roundedCurrent
        = .fin (4140617 / 33554432) ∧
     (rowOf (inputOf boot (floatOfBits 0x3DFCD680))).roundedPower
        = .fin (7119831 / 262144)) := by
  have h := quantization_bounds boot (129453 / 1048576) (by norm_num) (by norm_num)
  obtain ⟨c, P, h1, h2, h3, h4, h5, h6, -⟩ := h.2.1
  exact ⟨by norm_num, ⟨c, P, h1, h2, h3, h4, h5, h6⟩, h.2.2.2⟩

/-! ## Exactly one expiry, by its effects -/

/-- A pass of `loop` whose expiry test fails leaves the outlets, relays and
indicator lines as its request handler left them and sends what the handler
sent, followed at most by the history response of a sample. -/
theorem loop_quiet (s : State) (p : Pass) (h : firesExpiry s p = false) :
    (loop s p.req p.t p.reading).1.bulb1State = (handleClient s p.req p.t).1.bulb1State ∧
    (loop s p.req p.t p.reading).1.bulb2State = (handleClient s p.req p.t).1.bulb2State ∧
    (loop s p.req p.t p.reading).1.relay1 = (handleClient s p.req p.t).1.relay1 ∧
    (loop s p.req p.t p.reading).1.relay2 = (handleClient s p.req p.t).1.relay2 ∧
    ((loop s p.req p.t p.reading).2 = (handleClient s p.req p.t).2 ∨
      ∃ rows, (loop s p.req p.t p.reading).2
        = (handleClient s p.req p.t).2 ++ [⟨200, "application/json", .data rows⟩]) := by
  unfold firesExpiry expiryDue at h
  unfold loop
  generalize handleClient s p.req p.t = hc at h
  obtain ⟨s1, sent⟩ := hc
  dsimp only at h ⊢
  rw [h]
  simp only [Bool.false_eq_true, if_false]
  split_ifs
  · simp [handleHistoricalData, updateHistoricalData_control]
  · simp

/-- C11, counterexample: the timer is armed at uptime `0` with `D = 5000000`
seconds. The product `5000000 * 1000` leaves the `int` range; as
`unsigned long` it is `705032704`. A pass of `loop` without a request at uptime
`705032704` ms, when only about `705033` of the `5000000` seconds have
elapsed, turns both outlets off and disarms the timer. -/
theorem expiry_early_counterexample :
    (0 : ℤ) < 5000000 ∧ ((705032704 - 0 : ℕ) : ℤ) < 1000 * 5000000 ∧
    (handleScheduleTime boot (some 5000000) 0).1.isScheduled = true ∧
    (handleScheduleTime boot (some 5000000) 0).1.bulb1State = true ∧
    (loop (handleScheduleTime boot (some 5000000) 0).1 none 705032704 (.fin 0)).1.isScheduled
      = false ∧
    (loop (handleScheduleTime boot (some 5000000) 0).1 none 705032704 (.fin 0)).1.bulb1State
      = false ∧
    (loop (handleScheduleTime boot (some 5000000) 0).1 none 705032704 (.fin 0)).1.bulb2State
      = false := by
  have hf : firesExpiry (handleScheduleTime boot (some 5000000) 0).1
      ⟨none, 705032704, .fin 0⟩ = true := by decide
  obtain ⟨l1, -, -, l4⟩ := loop_schedule (handleScheduleTime boot (some 5000000) 0).1
    ⟨none, 705032704, .fin 0⟩
  obtain ⟨o1, o2, -⟩ := l4 hf
  refine ⟨by decide, by decide, rfl, rfl, ?_, o1, o2⟩
  have := l1
  rw [hf] at this
  simpa using this

/-- C11, amended: the timer is armed by a schedule request with positive
duration `D` seconds, `1000 * D` within the `int` range, handled at uptime `T`.
The run continues with passes `before` of `loop`, each carrying no request or
any request other than turn-off-all and schedule, at times with
`t - T < 1000 * D`; then such a pass `p` with `1000 * D ≤ t - T < 2 ^ 32`; then
passes `after` carrying any requests but schedule, at any times. The timer is
armed after `before`, and each pass of `before` leaves the outlets and relays
as its request handler left them and sends only the handler's responses and
at most a history response. The pass `p` sends the turn-off response and leaves
both outlets off and the timer disarmed. The timer stays disarmed through
`after`, and each pass of `after` again leaves outlets and relays as its
request handler left them and sends only the handler's responses and at most a
history response: nothing is turned off by the timer a second time. Counted by
the expiry test, the run reaches the expiry branch exactly once. -/
theorem exactly_one_expiry (s : State) (D : ℤ) (T : ℕ) (hD : 0 < D)
    (hrep : 1000 * D < 2 ^ 31) (before : List Pass) (p : Pass) (after : List Pass)
    (hb : ∀ q ∈ before, q.keepsTimer = true ∧ T ≤ q.t ∧ ((q.t - T : ℕ) : ℤ) < 1000 * D)
    (hp : p.keepsTimer = true ∧ T ≤ p.t ∧ 1000 * D ≤ ((p.t - T : ℕ) : ℤ) ∧ p.t - T < 2 ^ 32)
    (ha : ∀ q ∈ after, q.noSchedule = true) :
    ((runLoop (handleScheduleTime s (some D) T).1 before).isScheduled = true ∧
      expiryCount (handleScheduleTime s (some D) T).1 before = 0) ∧
    (firesExpiry (runLoop (handleScheduleTime s (some D) T).1 before) p = true ∧
      (∃ r ∈ (loop (runLoop (handleScheduleTime s (some D) T).1 before)
          p.req p.t p.reading).2,
        r = ⟨200, "application/json", .text "\x7b\"status\":\"All bulbs turned off\"\x7d"⟩) ∧
      (runLoop (handleScheduleTime s (some D) T).1 (before ++ [p])).bulb1State = false ∧
      (runLoop (handleScheduleTime s (some D) T).1 (before ++ [p])).bulb2State = false ∧
      (runLoop (handleScheduleTime s (some D) T).1 (before ++ [p])).isScheduled = false) ∧
    (expiryCount (runLoop (handleScheduleTime s (some D) T).1 (before ++ [p])) after = 0 ∧
      (runLoop (handleScheduleTime s (some D) T).1 (before ++ [p] ++ after)).isScheduled
        = false) ∧
    expiryCount (handleScheduleTime s (some D) T).1 (before ++ [p] ++ after) = 1 ∧
    (∀ (a1 a2 : List Pass) (q : Pass), before = a1 ++ q :: a2 →
      (runLoop (handleScheduleTime s (some D) T).1 (a1 ++ [q])).isScheduled = true ∧
      (loop (runLoop (handleScheduleTime s (some D) T).1 a1) q.req q.t q.reading).1.bulb1State
        = (handleClient (runLoop (handleScheduleTime s (some D) T).1 a1) q.req q.t).1.bulb1State ∧
      (loop (runLoop (handleScheduleTime s (some D) T).1 a1) q.req q.t q.reading).1.bulb2State
        = (handleClient (runLoop (handleScheduleTime s (some D) T).1 a1) q.req q.t).1.bulb2State ∧
      (loop (runLoop (handleScheduleTime s (some D) T).1 a1) q.req q.t q.reading).1.relay1
        = (handleClient (runLoop (handleScheduleTime s (some D) T).1 a1) q.req q.t).1.relay1 ∧
      (loop (runLoop (handleScheduleTime s (some D) T).1 a1) q.req q.t q.reading).1.relay2
        = (handleClient (runLoop (handleScheduleTime s (some D) T).1 a1) q.req q.t).1.relay2 ∧
      ((loop (runLoop (handleScheduleTime s (some D) T).1 a1) q.req q.t q.reading).2
          = (handleClient (runLoop (handleScheduleTime s (some D) T).1 a1) q.req q.t).2 ∨
        ∃ rows, (loop (runLoop (handleScheduleTime s (some D) T).1 a1) q.req q.t q.reading).2
          = (handleClient (runLoop (handleScheduleTime s (some D) T).1 a1) q.req q.t).2
            ++ [⟨200, "application/json", .data rows⟩])) ∧
    (∀ (a1 a2 : List Pass) (q : Pass), after = a1 ++ q :: a2 →
      (runLoop (handleScheduleTime s (some D) T).1 (before ++ [p] ++ a1 ++ [q])).isScheduled
        = false ∧
      (loop (runLoop (handleScheduleTime s (some D) T).1 (before ++ [p] ++ a1))
          q.req q.t q.reading).1.bulb1State
        = (handleClient (runLoop (handleScheduleTime s (some D) T).1 (before ++ [p] ++ a1))
          q.req q.t).1.bulb1State ∧
      (loop (runLoop (handleScheduleTime s (some D) T).1 (before ++ [p] ++ a1))
          q.req q.t q.reading).1.bulb2State
        = (handleClient (runLoop (handleScheduleTime s (some D) T).1 (before ++ [p] ++ a1))
          q.req q.t).1.bulb2State ∧
      (loop (runLoop (handleScheduleTime s (some D) T).1 (before ++ [p] ++ a1))
          q.req q.t q.reading).1.relay1
        = (handleClient (runLoop (handleScheduleTime s (some D) T).1 (before ++ [p] ++ a1))
          q.req q.t).1.relay1 ∧
      (loop (runLoop (handleScheduleTime s (some D) T).1 (before ++ [p] ++ a1))
          q.req q.t q.reading).1.relay2
        = (handleClient (runLoop (handleScheduleTime s (some D) T).1 (before ++ [p] ++ a1))
          q.req q.t).1.relay2 ∧
      ((loop (runLoop (handleScheduleTime s (some D) T).1 (before ++ [p] ++ a1))
          q.req q.t q.reading).2
          = (handleClient (runLoop (handleScheduleTime s (some D) T).1 (before ++ [p] ++ a1))
            q.req q.t).2 ∨
        ∃ rows, (loop (runLoop (handleScheduleTime s (some D) T).1 (before ++ [p] ++ a1))
            q.req q.t q.reading).2
          = (handleClient (runLoop (handleScheduleTime s (some D) T).1 (before ++ [p] ++ a1))
            q.req q.t).2 ++ [⟨200, "application/json", .data rows⟩])) := by
  have h0 : TimerArmed D T (handleScheduleTime s (some D) T).1 := by
    simp [TimerArmed, handleScheduleTime, handleTurnOnAll, setLEDs]
  obtain ⟨b1, b2⟩ := timerArmed_run D T hD hrep before _ h0 hb
  obtain ⟨p1, p2⟩ := timerArmed_expire _ D T p b1 hD hrep hp
  obtain ⟨-, -, -, l4⟩ := loop_schedule (runLoop (handleScheduleTime s (some D) T).1 before) p
  obtain ⟨o1, o2, -, -, o5⟩ := l4 p1
  have hstep : runLoop (handleScheduleTime s (some D) T).1 (before ++ [p])
      = (loop (runLoop (handleScheduleTime s (some D) T).1 before) p.req p.t p.reading).1 := by
    rw [runLoop_append]
    rfl
  have hdis : (runLoop (handleScheduleTime s (some D) T).1 (before ++ [p])).isScheduled
      = false := by rw [hstep]; exact p2
  obtain ⟨a1, a2⟩ := disarmed_run after _ hdis ha
  refine ⟨⟨b1.1, b2⟩, ⟨p1, o5, ?_, ?_, hdis⟩, ⟨a2, ?_⟩, ?_, ?_, ?_⟩
  · rw [hstep]; exact o1
  · rw [hstep]; exact o2
  · rw [runLoop_append]; exact a1
  · rw [expiryCount_append, expiryCount_append, b2, a2]
    simp [expiryCount, p1]
  · intro x1 x2 q hsplit
    have hx1 : ∀ y ∈ x1, y.keepsTimer = true ∧ T ≤ y.t ∧ ((y.t - T : ℕ) : ℤ) < 1000 * D :=
      fun y hy => hb y (by rw [hsplit]; exact List.mem_append_left _ hy)
    have hq := hb q (by rw [hsplit]; simp)
    obtain ⟨c1, -⟩ := timerArmed_run D T hD hrep x1 _ h0 hx1
    obtain ⟨hf, hn⟩ := timerArmed_before _ D T q c1 hD hrep hq
    obtain ⟨q1, q2, q3, q4, q5⟩ := loop_quiet _ q hf
    refine ⟨?_, q1, q2, q3, q4, q5⟩
    rw [runLoop_append]
    exact hn.1
  · intro x1 x2 q hsplit
    have hx1 : ∀ y ∈ x1, y.noSchedule = true :=
      fun y hy => ha y (by rw [hsplit]; exact List.mem_append_left _ hy)
    have hq := ha q (by rw [hsplit]; simp)
    obtain ⟨c1, -⟩ := disarmed_run x1 _ hdis hx1
    rw [← runLoop_append] at c1
    obtain ⟨hf, hn⟩ := disarmed_pass _ q c1 hq
    obtain ⟨q1, q2, q3, q4, q5⟩ := loop_quiet _ q hf
    refine ⟨?_, q1, q2, q3, q4, q5⟩
    rw [runLoop_append]
    exact hn

theorem exactly_one_expiry_witness :
    ((0 : ℤ) < 10 ∧ (1000 * 10 : ℤ) < 2 ^ 31) ∧
    (runLoop (handleScheduleTime boot (some 10) 0).1
      [⟨some .toggleBulb1, 3000, .fin 0⟩, ⟨none, 9900, .fin 0⟩]).isScheduled = true ∧
    (runLoop (handleScheduleTime boot (some 10) 0).1
      ([⟨some .toggleBulb1, 3000, .fin 0⟩, ⟨none, 9900, .fin 0⟩]
        ++ [⟨none, 10100, .fin 0⟩])).bulb2State = false ∧
    (runLoop (handleScheduleTime boot (some 10) 0).1
      ([⟨some .toggleBulb1, 3000, .fin 0⟩, ⟨none, 9900, .fin 0⟩]
        ++ [⟨none, 10100, .fin 0⟩])).isScheduled = false ∧
    (runLoop (handleScheduleTime boot (some 10) 0).1
      ([⟨some .toggleBulb1, 3000, .fin 0⟩, ⟨none, 9900, .fin 0⟩] ++ [⟨none, 10100, .fin 0⟩]
        ++ [⟨some .turnOnAll, 12000, .fin 0⟩, ⟨none, 30000, .fin 0⟩])).bulb1State = true ∧
    (runLoop (handleScheduleTime boot (some 10) 0).1
      ([⟨some .toggleBulb1, 3000, .fin 0⟩, ⟨none, 9900, .fin 0⟩] ++ [⟨none, 10100, .fin 0⟩]
        ++ [⟨some .turnOnAll, 12000, .fin 0⟩, ⟨none, 30000, .fin 0⟩])).isScheduled = false ∧
    expiryCount (handleScheduleTime boot (some 10) 0).1
      ([⟨some .toggleBulb1, 3000, .fin 0⟩, ⟨none, 9900, .fin 0⟩] ++ [⟨none, 10100, .fin 0⟩]
        ++ [⟨some .turnOnAll, 12000, .fin 0⟩, ⟨none, 30000, .fin 0⟩]) = 1 := by
  have h := exactly_one_expiry boot 10 0 (by decide) (by decide)
    [⟨some .toggleBulb1, 3000, .fin 0⟩, ⟨none, 9900, .fin 0⟩] ⟨none, 10100, .fin 0⟩
    [⟨some .turnOnAll, 12000, .fin 0⟩, ⟨none, 30000, .fin 0⟩]
    (by
      intro q hq
      simp only [List.mem_cons, List.mem_singleton, List.not_mem_nil, or_false] at hq
      rcases hq with rfl | rfl <;> exact ⟨rfl, by decide, by decide⟩)
    ⟨rfl, by decide, by decide, by decide⟩
    (by
      intro q hq
      simp only [List.mem_cons, List.mem_singleton, List.not_mem_nil, or_false] at hq
      rcases hq with rfl | rfl <;> rfl)
  obtain ⟨h1, h2, h3, h4, -, h6⟩ := h
  -- the two later passes, one after the other
  have e1 := h6 [] [⟨none, 30000, .fin 0⟩] ⟨some .turnOnAll, 12000, .fin 0⟩ rfl
  have e2 := h6 [⟨some .turnOnAll, 12000, .fin 0⟩] [] ⟨none, 30000, .fin 0⟩ rfl
  refine ⟨⟨by decide, by decide⟩, h1.1, h2.2.2.2.1, h2.2.2.2.2, ?_, h3.2, h4⟩
  have s1 : (runLoop (handleScheduleTime boot (some 10) 0).1
      ([⟨some .toggleBulb1, 3000, .fin 0⟩, ⟨none, 9900, .fin 0⟩] ++ [⟨none, 10100, .fin 0⟩]
        ++ [⟨some .turnOnAll, 12000, .fin 0⟩])).bulb1State = true := by
    rw [runLoop_append]
    simp only [List.append_nil] at e1
    have := e1.2.1
    simp only [runLoop, List.foldl_cons, List.foldl_nil] at this ⊢
    rw [this]
    simp [handleClient, handleTurnOnAll, setLEDs]
  have s2 : (runLoop (handleScheduleTime boot (some 10) 0).1
      ([⟨some .toggleBulb1, 3000, .fin 0⟩, ⟨none, 9900, .fin 0⟩] ++ [⟨none, 10100, .fin 0⟩]
        ++ [⟨some .turnOnAll, 12000, .fin 0⟩, ⟨none, 30000, .fin 0⟩])).bulb1State
      = (runLoop (handleScheduleTime boot (some 10) 0).1
      ([⟨some .toggleBulb1, 3000, .fin 0⟩, ⟨none, 9900, .fin 0⟩] ++ [⟨none, 10100, .fin 0⟩]
        ++ [⟨some .turnOnAll, 12000, .fin 0⟩])).bulb1State := by
    have := e2.2.1
    rw [show ([⟨some .toggleBulb1, 3000, .fin 0⟩, ⟨none, 9900, .fin 0⟩] ++ [⟨none, 10100, .fin 0⟩]
        ++ [⟨some .turnOnAll, 12000, .fin 0⟩, ⟨none, 30000, .fin 0⟩] : List Pass)
      = ([⟨some .toggleBulb1, 3000, .fin 0⟩, ⟨none, 9900, .fin 0⟩] ++ [⟨none, 10100, .fin 0⟩]
        ++ [⟨some .turnOnAll, 12000, .fin 0⟩]) ++ [⟨none, 30000, .fin 0⟩] from rfl,
      runLoop_append]
    simp only [runLoop, List.foldl_cons, List.foldl_nil] at this ⊢
    rw [this]
    simp [handleClient]
  rw [s2, s1]

end BulbControl
